import Mathlib

/-!
Snake game: the game-state engine of `script.js`.

A shallow embedding of the game state and of the functions `resizeCanvas`,
`initGame`, `generateFood`, `gameLoop`, `startGame`, `pauseGame`,
`togglePause`, `restartGame`, `gameOver` and `setDirection`, followed by
theorems about them.

Modelling conventions.

* The module-level variables of the script are the fields of `State`; every
  function is a state transformer.
* `Math.random()` is a list of draws that the functions consume from the
  front.  A function that calls `generateFood` returns `none` when the draws
  run out before a free cell is found (the retry recursion has not returned).
* Numbers are exact: coordinates and speeds are integers, the quotient
  `canvas.width / config.boxSize` is a rational.  `config.boxSize` is taken to
  be non-zero wherever it is a divisor (a zero divisor gives `NaN` cells in the
  script, which are outside this model).
* The geometry (`config.boxSize` and the size of the canvas) is a parameter of
  the functions; `IsGeometry` says that it is one that `resizeCanvas` sets.
* Drawing, sounds and the text of the DOM are not modelled.
-/

namespace Snake

/-- The four direction strings `'UP'`, `'DOWN'`, `'LEFT'`, `'RIGHT'`. -/
inductive Direction where
  | UP
  | DOWN
  | LEFT
  | RIGHT
  deriving DecidableEq, Repr

/-- A grid cell in pixel coordinates, the objects `{ x, y }`. -/
structure Cell where
  x : Int
  y : Int
  deriving DecidableEq, Repr

/-- The object `config`. -/
structure Config where
  boxSize : Int
  initialSpeed : Int
  speedIncrease : Int
  maxSpeed : Int
  deriving DecidableEq, Repr

/-- The size of the element `canvas`. -/
structure Canvas where
  width : Int
  height : Int
  deriving DecidableEq, Repr

/-- The module-level game state.  `food = none` is the initial `{}`;
`gameInterval` is the interval of the scheduled tick timer, `none` when no
timer is scheduled; `storedHighScore` is the entry `snakeHighScore` of
`localStorage`. -/
structure State where
  snake : List Cell
  food : Option Cell
  direction : Option Direction
  nextDirection : Option Direction
  gameStarted : Bool
  isPaused : Bool
  score : Nat
  highScore : Nat
  storedHighScore : Option Nat
  speed : Int
  gameInterval : Option Int
  deriving DecidableEq, Repr

/-- Which `return` of `gameLoop` ended the tick. -/
inductive TickResult where
  | paused
  | noDirection
  | crashed
  | ateFood
  | moved
  deriving DecidableEq, Repr

/-- The configuration as written in the script. -/
def shippedConfig : Config :=
  { boxSize := 20, initialSpeed := 150, speedIncrease := 5, maxSpeed := 50 }

/-- The canvas of a wide window: `Math.min(window.innerWidth - 40, 400)`. -/
def shippedCanvas : Canvas := { width := 400, height := 400 }

/-- The state when the script has been loaded, given the stored high score. -/
def initialState (config : Config) (stored : Option Nat) : State :=
  { snake := []
    food := none
    direction := none
    nextDirection := none
    gameStarted := false
    isPaused := false
    score := 0
    highScore := stored.getD 0
    storedHighScore := stored
    speed := config.initialSpeed
    gameInterval := none }

/-- The test `segment.x === c.x && segment.y === c.y` over the whole snake. -/
def onSnake (snake : List Cell) (c : Cell) : Bool :=
  snake.any (fun segment => decide (segment.x = c.x) && decide (segment.y = c.y))

/-- The function `generateFood`: two draws per attempt, retry on an occupied
cell. -/
def generateFood (config : Config) (canvas : Canvas) (s : State) :
    List ℚ → Option (State × List ℚ)
  | rx :: ry :: rest =>
    let maxPos : ℚ := (canvas.width : ℚ) / (config.boxSize : ℚ) - 1
    let food : Cell :=
      { x := Int.floor (rx * maxPos) * config.boxSize
        y := Int.floor (ry * maxPos) * config.boxSize }
    if onSnake s.snake food then generateFood config canvas s rest
    else some ({ s with food := some food }, rest)
  | _ => none

/-- The function `initGame`. -/
def initGame (config : Config) (canvas : Canvas) (s : State) (draws : List ℚ) :
    Option (State × List ℚ) :=
  let centerX := Int.floor ((canvas.width : ℚ) / (config.boxSize : ℚ) / 2) * config.boxSize
  let centerY := Int.floor ((canvas.height : ℚ) / (config.boxSize : ℚ) / 2) * config.boxSize
  match generateFood config canvas { s with snake := [{ x := centerX, y := centerY }] } draws with
  | none => none
  | some (s1, rest) =>
    some ({ s1 with
              direction := none
              nextDirection := none
              score := 0
              speed := config.initialSpeed }, rest)

/-- The function `gameOver`; the restart it schedules after 100 ms is the
operation `restartGame`. -/
def gameOver (s : State) : State :=
  let s1 := { s with gameInterval := none, gameStarted := false }
  if s1.score > s1.highScore then
    { s1 with highScore := s1.score, storedHighScore := some s1.score }
  else s1

/-- The `switch (direction)` of `gameLoop` applied to a copy of the head. -/
def moveHead (config : Config) (d : Direction) (head : Cell) : Cell :=
  match d with
  | .UP => { head with y := head.y - config.boxSize }
  | .DOWN => { head with y := head.y + config.boxSize }
  | .LEFT => { head with x := head.x - config.boxSize }
  | .RIGHT => { head with x := head.x + config.boxSize }

/-- The latch at the start of a frame: `if (nextDirection) ...`. -/
def latch (s : State) : State :=
  match s.nextDirection with
  | some d => { s with direction := some d, nextDirection := none }
  | none => s

/-- The collision test of `gameLoop` for the moved head `head`. -/
def collides (canvas : Canvas) (snake : List Cell) (head : Cell) : Bool :=
  decide (head.x < 0) || decide (head.x ≥ canvas.width) ||
  decide (head.y < 0) || decide (head.y ≥ canvas.height) ||
  onSnake snake head

/-- The function `gameLoop`.  With an empty snake (before the first
`initGame`) the copied head has no coordinates, no test succeeds, and the
cell that `unshift` adds is removed again by `pop`. -/
def gameLoop (config : Config) (canvas : Canvas) (s : State) (draws : List ℚ) :
    Option (TickResult × State × List ℚ) :=
  if s.isPaused then some (.paused, s, draws)
  else
    let s1 := latch s
    match s1.direction with
    | none => some (.noDirection, s1, draws)
    | some d =>
      match s1.snake with
      | [] => some (.moved, s1, draws)
      | head0 :: _ =>
        let head := moveHead config d head0
        if collides canvas s1.snake head then some (.crashed, gameOver s1, draws)
        else
          let s2 := { s1 with snake := head :: s1.snake }
          if s2.food = some head then
            let s3 := { s2 with score := s2.score + 1 }
            let s4 :=
              if s3.speed > config.maxSpeed then
                { s3 with
                    speed := s3.speed - config.speedIncrease
                    gameInterval := some (s3.speed - config.speedIncrease) }
              else s3
            match generateFood config canvas s4 draws with
            | none => none
            | some (s5, rest) => some (.ateFood, s5, rest)
          else some (.moved, { s2 with snake := s2.snake.dropLast }, draws)

/-- The function `startGame`. -/
def startGame (config : Config) (canvas : Canvas) (s : State) (draws : List ℚ) :
    Option (State × List ℚ) :=
  if s.gameStarted && !s.isPaused then some (s, draws)
  else
    let started : Option (State × List ℚ) :=
      if !s.gameStarted then
        match initGame config canvas s draws with
        | none => none
        | some (s1, rest) => some ({ s1 with gameStarted := true }, rest)
      else some (s, draws)
    match started with
    | none => none
    | some (s1, rest) =>
      some ({ s1 with isPaused := false, gameInterval := some s1.speed }, rest)

/-- The function `pauseGame`. -/
def pauseGame (s : State) : State :=
  { s with isPaused := true, gameInterval := none }

/-- The function `togglePause`. -/
def togglePause (config : Config) (canvas : Canvas) (s : State) (draws : List ℚ) :
    Option (State × List ℚ) :=
  if !s.gameStarted then startGame config canvas s draws
  else if s.isPaused then startGame config canvas s draws
  else some (pauseGame s, draws)

/-- The function `restartGame`. -/
def restartGame (config : Config) (canvas : Canvas) (s : State) (draws : List ℚ) :
    Option (State × List ℚ) :=
  initGame config canvas
    { s with gameInterval := none, gameStarted := false, isPaused := false } draws

/-- The direction that `setDirection` refuses after `d`. -/
def opposite : Direction → Direction
  | .UP => .DOWN
  | .DOWN => .UP
  | .LEFT => .RIGHT
  | .RIGHT => .LEFT

/-- The reversal test of `setDirection`. -/
def isReverse (direction : Option Direction) (newDirection : Direction) : Bool :=
  (decide (direction = some .UP) && decide (newDirection = .DOWN)) ||
  (decide (direction = some .DOWN) && decide (newDirection = .UP)) ||
  (decide (direction = some .LEFT) && decide (newDirection = .RIGHT)) ||
  (decide (direction = some .RIGHT) && decide (newDirection = .LEFT))

/-- The function `setDirection`. -/
def setDirection (config : Config) (canvas : Canvas) (newDirection : Direction)
    (s : State) (draws : List ℚ) : Option (State × List ℚ) :=
  let started : Option (State × List ℚ) :=
    if !s.gameStarted then startGame config canvas s draws else some (s, draws)
  match started with
  | none => none
  | some (s1, rest) =>
    if isReverse s1.direction newDirection then some (s1, rest)
    else some ({ s1 with nextDirection := some newDirection }, rest)

/-- The events that the page delivers to the script: the four direction
inputs, the three commands, and a firing of the tick timer.  `pauseGame` is
also listed on its own, although the page reaches it through `togglePause`. -/
inductive Op where
  | setDirection (newDirection : Direction)
  | startGame
  | pauseGame
  | togglePause
  | restartGame
  | tick
  deriving DecidableEq, Repr

/-- The handler of each event. -/
def applyOp (config : Config) (canvas : Canvas) (op : Op) (s : State) (draws : List ℚ) :
    Option (State × List ℚ) :=
  match op with
  | .setDirection d => setDirection config canvas d s draws
  | .startGame => startGame config canvas s draws
  | .pauseGame => some (pauseGame s, draws)
  | .togglePause => togglePause config canvas s draws
  | .restartGame => restartGame config canvas s draws
  | .tick =>
    match gameLoop config canvas s draws with
    | none => none
    | some (_, s1, rest) => some (s1, rest)

/-- Whether the handler of `op`, run in state `s`, calls `initGame`. -/
def callsInitGame (op : Op) (s : State) : Bool :=
  match op with
  | .restartGame => true
  | .setDirection _ => !s.gameStarted
  | .startGame => !s.gameStarted
  | .togglePause => !s.gameStarted
  | .pauseGame => false
  | .tick => false

/-- The states that a sequence of events leads to from `s0`, whatever the
draws of each event.  Every handler may run in every state; in particular a
tick is not tied to a scheduled timer, and the restart that `gameOver`
schedules is a `restartGame` event like any other. -/
inductive Reachable (config : Config) (canvas : Canvas) (s0 : State) : State → Prop where
  | refl : Reachable config canvas s0 s0
  | step (op : Op) (draws rest : List ℚ) (s s1 : State) :
      Reachable config canvas s0 s →
      applyOp config canvas op s draws = some (s1, rest) →
      Reachable config canvas s0 s1

/-- The cell `{ x: centerX, y: centerY }` of `initGame`. -/
def centerCell (config : Config) (canvas : Canvas) : Cell :=
  { x := Int.floor ((canvas.width : ℚ) / (config.boxSize : ℚ) / 2) * config.boxSize
    y := Int.floor ((canvas.height : ℚ) / (config.boxSize : ℚ) / 2) * config.boxSize }

/-- The state of `gameLoop` between `snake.unshift(head)` on the food cell and
the call of `generateFood`: the score is incremented and, above the floor, the
speed is lowered and the timer rescheduled.  `s1` is the latched state. -/
def eaten (config : Config) (s1 : State) (head : Cell) : State :=
  if s1.speed > config.maxSpeed then
    { s1 with
        snake := head :: s1.snake
        score := s1.score + 1
        speed := s1.speed - config.speedIncrease
        gameInterval := some (s1.speed - config.speedIncrease) }
  else { s1 with snake := head :: s1.snake, score := s1.score + 1 }

/-- What `initGame` leaves when `generateFood` has placed the food on `f`. -/
def resetState (config : Config) (canvas : Canvas) (s : State) (f : Cell) : State :=
  { s with
      snake := [centerCell config canvas]
      food := some f
      direction := none
      nextDirection := none
      score := 0
      speed := config.initialSpeed }

/-- A sequence of events, each with the draws it may use, run from `s`. -/
def run (config : Config) (canvas : Canvas) : List (Op × List ℚ) → State → Option State
  | [], s => some s
  | (op, draws) :: events, s =>
    match applyOp config canvas op s draws with
    | none => none
    | some (s1, _) => run config canvas events s1

/-- The fields that only `initGame`, `gameLoop` and `gameOver` write are the
same in `s` and `s1`. -/
def SameGame (s s1 : State) : Prop :=
  s1.snake = s.snake ∧ s1.food = s.food ∧ s1.direction = s.direction ∧ s1.score = s.score ∧
  s1.speed = s.speed ∧ s1.highScore = s.highScore ∧ s1.storedHighScore = s.storedHighScore

/-- The state `s1` is what a reset of `s` leaves, up to the fields that the
caller of `initGame` writes afterwards. -/
def FreshGame (config : Config) (canvas : Canvas) (s s1 : State) : Prop :=
  ∃ f : Cell, f ≠ centerCell config canvas ∧ s1.snake = [centerCell config canvas] ∧
    s1.food = some f ∧ s1.direction = none ∧ s1.score = 0 ∧ s1.speed = config.initialSpeed ∧
    s1.highScore = s.highScore ∧ s1.storedHighScore = s.storedHighScore

/-- A running game on the 20 x 20 grid: the snake on its start cell (10,10),
`UP` queued, the food on cell (3,3). -/
def queuedUpState : State :=
  { snake := [{ x := 200, y := 200 }]
    food := some { x := 60, y := 60 }
    direction := none
    nextDirection := some .UP
    gameStarted := true
    isPaused := false
    score := 0
    highScore := 0
    storedHighScore := none
    speed := 150
    gameInterval := some 150 }

/-- A running game: a snake of three cells (5,5), (5,6), (5,7) moving `UP`
with the food on the cell (5,4) in front of it. -/
def aboutToEatState : State :=
  { snake := [{ x := 100, y := 100 }, { x := 100, y := 120 }, { x := 100, y := 140 }]
    food := some { x := 100, y := 80 }
    direction := some .UP
    nextDirection := none
    gameStarted := true
    isPaused := false
    score := 0
    highScore := 0
    storedHighScore := none
    speed := 150
    gameInterval := some 150 }

/-- A running game: the head on the cell (0,5) of the left column, moving
`LEFT`. -/
def atLeftWallState : State :=
  { snake := [{ x := 0, y := 100 }]
    food := some { x := 60, y := 60 }
    direction := some .LEFT
    nextDirection := none
    gameStarted := true
    isPaused := false
    score := 0
    highScore := 0
    storedHighScore := none
    speed := 150
    gameInterval := some 150 }

/-- The state after the tick of `aboutToEatState` when the first attempt of
`generateFood` lands on the new head and the second on the cell (9,9). -/
def justAteState : State :=
  { snake := [{ x := 100, y := 80 }, { x := 100, y := 100 }, { x := 100, y := 120 },
      { x := 100, y := 140 }]
    food := some { x := 180, y := 180 }
    direction := some .UP
    nextDirection := none
    gameStarted := true
    isPaused := false
    score := 1
    highScore := 0
    storedHighScore := none
    speed := 145
    gameInterval := some 145 }

/-- The game on the 20 x 20 grid just started by an `UP` input, the food
drawn onto the cell (0,0). -/
def startedUpState : State :=
  { snake := [{ x := 200, y := 200 }]
    food := some { x := 0, y := 0 }
    direction := none
    nextDirection := some .UP
    gameStarted := true
    isPaused := false
    score := 0
    highScore := 0
    storedHighScore := none
    speed := 150
    gameInterval := some 150 }

/-- The state of `startedUpState` after eleven ticks: ten moves up to the top
row and the crash into the top wall.  `gameOver` has run (`gameStarted` is
false, no timer); its delayed `restartGame` has not run yet, so `direction` is
still `UP`. -/
def crashedAtTopState : State :=
  { snake := [{ x := 200, y := 0 }]
    food := some { x := 0, y := 0 }
    direction := some .UP
    nextDirection := none
    gameStarted := false
    isPaused := false
    score := 0
    highScore := 0
    storedHighScore := none
    speed := 150
    gameInterval := none }

/-- The state that `setDirection('DOWN')` leaves from `crashedAtTopState`
when the food is drawn onto the cell (9,9): a new running game with `DOWN`
pending. -/
def restartedDownState : State :=
  { snake := [{ x := 200, y := 200 }]
    food := some { x := 180, y := 180 }
    direction := none
    nextDirection := some .DOWN
    gameStarted := true
    isPaused := false
    score := 0
    highScore := 0
    storedHighScore := none
    speed := 150
    gameInterval := some 150 }

/-- A configuration in which `speedIncrease` does not divide
`initialSpeed - maxSpeed`. -/
def tightConfig : Config :=
  { boxSize := 20, initialSpeed := 52, speedIncrease := 5, maxSpeed := 50 }

/-- The game on the 20 x 20 grid just started by a `RIGHT` input at the tick
interval `speed`, the food drawn onto the cell (11,10) right of the start
cell. -/
def startedRightState (speed : Int) : State :=
  { snake := [{ x := 200, y := 200 }]
    food := some { x := 220, y := 200 }
    direction := none
    nextDirection := some .RIGHT
    gameStarted := true
    isPaused := false
    score := 0
    highScore := 0
    storedHighScore := none
    speed := speed
    gameInterval := some speed }

/-- The state of `startedRightState` after one tick, which eats; the tick
interval is now `speed` and the new food is drawn onto the cell (0,0). -/
def ateRightState (speed : Int) : State :=
  { snake := [{ x := 220, y := 200 }, { x := 200, y := 200 }]
    food := some { x := 0, y := 0 }
    direction := some .RIGHT
    nextDirection := none
    gameStarted := true
    isPaused := false
    score := 1
    highScore := 0
    storedHighScore := none
    speed := speed
    gameInterval := some speed }

/-- A running game with score 3 and high score 1: the head on the cell
(0,5) of the left column, moving `LEFT`. -/
def scoredAtWallState : State :=
  { snake := [{ x := 0, y := 100 }, { x := 20, y := 100 }, { x := 40, y := 100 },
      { x := 60, y := 100 }]
    food := some { x := 60, y := 60 }
    direction := some .LEFT
    nextDirection := none
    gameStarted := true
    isPaused := false
    score := 3
    highScore := 1
    storedHighScore := some 1
    speed := 135
    gameInterval := some 135 }

/-- The game on the 20 x 20 grid started by the start button: running, no
direction given yet. -/
def startedIdleState : State :=
  { snake := [{ x := 200, y := 200 }]
    food := some { x := 60, y := 60 }
    direction := none
    nextDirection := none
    gameStarted := true
    isPaused := false
    score := 0
    highScore := 0
    storedHighScore := none
    speed := 150
    gameInterval := some 150 }

/-- A paused game: a snake of three cells that was moving `UP`, with a
`LEFT` input pending from before or during the pause. -/
def pausedPendingState : State :=
  { snake := [{ x := 100, y := 100 }, { x := 100, y := 120 }, { x := 100, y := 140 }]
    food := some { x := 100, y := 80 }
    direction := some .UP
    nextDirection := some .LEFT
    gameStarted := true
    isPaused := true
    score := 2
    highScore := 0
    storedHighScore := none
    speed := 140
    gameInterval := none }

/-- The function `resizeCanvas` for a window of inner width `innerWidth`:
the configuration with the new `boxSize`, and the size of the canvas.  These
are the only writes to `canvas.width`, `canvas.height` and `config.boxSize`,
and the script calls the function before anything else. -/
def resizeCanvas (innerWidth : Int) (config : Config) : Config × Canvas :=
  let size := min (innerWidth - 40) 400
  ({ config with boxSize := Int.floor ((size : ℚ) / 20) }, { width := size, height := size })

/-- The object that one attempt of `generateFood` assigns to `food`, for the
two draws `rx` and `ry` of the attempt. -/
def foodCandidate (config : Config) (canvas : Canvas) (rx ry : ℚ) : Cell :=
  { x := Int.floor (rx * ((canvas.width : ℚ) / (config.boxSize : ℚ) - 1)) * config.boxSize
    y := Int.floor (ry * ((canvas.width : ℚ) / (config.boxSize : ℚ) - 1)) * config.boxSize }

/-- The geometry `config.boxSize`, `canvas.width`, `canvas.height` is one that
`resizeCanvas` sets, for some window width. -/
def IsGeometry (config : Config) (canvas : Canvas) : Prop :=
  ∃ (innerWidth : Int) (config0 : Config), resizeCanvas innerWidth config0 = (config, canvas)

/-- A sequence of `setDirection` calls with no tick in between. -/
def setDirections (config : Config) (canvas : Canvas) :
    List Direction → State → List ℚ → Option (State × List ℚ)
  | [], s, draws => some (s, draws)
  | d :: ds, s, draws =>
    match setDirection config canvas d s draws with
    | none => none
    | some (s1, rest) => setDirections config canvas ds s1 rest

/-- The last direction of the sequence that passes the reversal test of
`setDirection` against `direction`, if there is one. -/
def lastAccepted (direction : Option Direction) : List Direction → Option Direction
  | [] => none
  | d :: ds =>
    match lastAccepted direction ds with
    | some e => some e
    | none => if isReverse direction d then none else some d

/-- The states that a sequence of events leads to from `s0` when every event
satisfies `ok` in the state in which it arrives, with the draws it uses. -/
inductive ReachableBy (config : Config) (canvas : Canvas)
    (ok : Op → State → List ℚ → Prop) (s0 : State) : State → Prop where
  | refl : ReachableBy config canvas ok s0 s0
  | step (op : Op) (draws rest : List ℚ) (s s1 : State) :
      ReachableBy config canvas ok s0 s →
      ok op s draws →
      applyOp config canvas op s draws = some (s1, rest) →
      ReachableBy config canvas ok s0 s1

/-- A tick arrives only while a tick timer is scheduled: `gameLoop` is called
by `setInterval` alone, and `clearInterval` stops the calls. -/
def timerFires (op : Op) (s : State) (_draws : List ℚ) : Prop :=
  op = Op.tick → s.gameInterval ≠ none

/-- Every draw is a value of `Math.random()`, at least 0 and less than 1. -/
def drawsInRange (_op : Op) (_s : State) (draws : List ℚ) : Prop :=
  ∀ r ∈ draws, 0 ≤ r ∧ r < 1

/-- The timer is scheduled exactly when the game is started and not paused,
and then at the interval `speed`. -/
def TimerInv (s : State) : Prop :=
  s.gameInterval = if s.gameStarted && !s.isPaused then some s.speed else none

/-- The cell `c` is in column `ix` and row `iy`, both at least 0 and less than
`canvas.width / config.boxSize - 1`; it starts inside the canvas, and so do the
column on its right and the row below it. -/
def FoodRange (config : Config) (canvas : Canvas) (c : Cell) : Prop :=
  ∃ ix iy : Int, c = { x := ix * config.boxSize, y := iy * config.boxSize } ∧
    0 ≤ ix ∧ (ix : ℚ) < (canvas.width : ℚ) / (config.boxSize : ℚ) - 1 ∧
    0 ≤ iy ∧ (iy : ℚ) < (canvas.width : ℚ) / (config.boxSize : ℚ) - 1 ∧
    0 ≤ c.x ∧ c.x + config.boxSize < canvas.width ∧
    0 ≤ c.y ∧ c.y + config.boxSize < canvas.height

/-- Column `i` of the 19 x 19 block of the 20 x 20 grid, in boxes of 20: top
to bottom when `i` is even, bottom to top when it is odd. -/
def blockColumn (i : Nat) : List Cell :=
  (if i % 2 = 0 then List.range 19 else (List.range 19).reverse).map
    (fun (j : Nat) => ({ x := 20 * (i : Int), y := 20 * (j : Int) } : Cell))

/-- The first `n` columns of the block, one after the other. -/
def blockColumns : Nat → List Cell
  | 0 => []
  | n + 1 => blockColumns n ++ blockColumn n

/-- A snake that winds through every cell of the columns 0 to 18 and rows 0 to
18 of the 20 x 20 grid: 361 cells, head on (0,0), each cell next to the one
before.  The 39 cells of the last column and the last row are free. -/
def blockSnake : List Cell := blockColumns 19

/-- A running game on the 400 x 400 canvas with boxes of 20, one tick before
the snake fills the block: the snake is `blockSnake` without its head, it moves
`UP` from (0,1), and the food is on (0,0), the last cell of the block. -/
def almostFullState : State :=
  { snake := blockSnake.tail
    food := some { x := 0, y := 0 }
    direction := some .UP
    nextDirection := none
    gameStarted := true
    isPaused := false
    score := 359
    highScore := 0
    storedHighScore := none
    speed := 50
    gameInterval := some 50 }

/-- The cell `c` has pixel coordinates that are `boxSize` times a column and
a row, both at least 0, and it starts inside the canvas. -/
def OnGrid (config : Config) (canvas : Canvas) (c : Cell) : Prop :=
  ∃ i j : Int, 0 ≤ i ∧ 0 ≤ j ∧ c = { x := i * config.boxSize, y := j * config.boxSize } ∧
    0 ≤ c.x ∧ c.x < canvas.width ∧ 0 ≤ c.y ∧ c.y < canvas.height

/-- No cell of the list occurs twice, by the test of `generateFood`. -/
def distinctCells : List Cell → Bool
  | [] => true
  | c :: rest => !onSnake rest c && distinctCells rest

/-- Each cell of the list is one box of 20 away from the next, along one axis. -/
def adjacentCells : List Cell → Bool
  | a :: b :: rest =>
    decide ((a.x - b.x).natAbs + (a.y - b.y).natAbs = 20) && adjacentCells (b :: rest)
  | _ => true

/-! ## Lemmas on the functions -/

theorem onSnake_iff (snake : List Cell) (c : Cell) : onSnake snake c = true ↔ c ∈ snake := by
  unfold onSnake
  rw [List.any_eq_true]
  constructor
  · rintro ⟨seg, hmem, hseg⟩
    have hxy : seg.x = c.x ∧ seg.y = c.y := by simpa using hseg
    have hc : seg = c := by
      cases seg; cases c; simp_all
    exact hc ▸ hmem
  · intro hmem
    exact ⟨c, hmem, by simp⟩

theorem onSnake_false_iff (snake : List Cell) (c : Cell) :
    onSnake snake c = false ↔ c ∉ snake := by
  rw [← onSnake_iff]; simp

theorem generateFood_cons (config : Config) (canvas : Canvas) (s : State) (rx ry : ℚ)
    (rest : List ℚ) :
    generateFood config canvas s (rx :: ry :: rest) =
      if onSnake s.snake
          { x := Int.floor (rx * ((canvas.width : ℚ) / (config.boxSize : ℚ) - 1)) * config.boxSize
            y := Int.floor (ry * ((canvas.width : ℚ) / (config.boxSize : ℚ) - 1)) * config.boxSize }
      then generateFood config canvas s rest
      else some ({ s with
                    food := some
                      { x := Int.floor (rx * ((canvas.width : ℚ) / (config.boxSize : ℚ) - 1)) *
                          config.boxSize
                        y := Int.floor (ry * ((canvas.width : ℚ) / (config.boxSize : ℚ) - 1)) *
                          config.boxSize } }, rest) := by
  rw [generateFood]

/-- What a returning `generateFood` has done: only `food` is written, with a
cell that is not on the snake, and at least two draws are used up. -/
theorem generateFood_some (config : Config) (canvas : Canvas) (s : State) :
    ∀ (draws : List ℚ) (s1 : State) (rest : List ℚ),
      generateFood config canvas s draws = some (s1, rest) →
      ∃ f : Cell, s1 = { s with food := some f } ∧ f ∉ s.snake ∧
        rest.length + 2 ≤ draws.length := by
  intro draws
  generalize hn : draws.length = n
  induction n using Nat.strong_induction_on generalizing draws with
  | _ n ih =>
    intro s1 rest1 h
    match draws, hn, h with
    | [], _, h => simp [generateFood] at h
    | [_], _, h => simp [generateFood] at h
    | rx :: ry :: rest, hn, h =>
      rw [generateFood_cons] at h
      split at h
      · have hlt : rest.length < n := by
          simp only [List.length_cons] at hn
          omega
        obtain ⟨f, hf, hmem, hlen⟩ := ih rest.length hlt rest rfl s1 rest1 h
        exact ⟨f, hf, hmem, by simp only [List.length_cons] at hn; omega⟩
      · rename_i hfree
        simp only [Option.some.injEq, Prod.mk.injEq] at h
        obtain ⟨h1, h2⟩ := h
        refine ⟨_, h1.symm, ?_, ?_⟩
        · rw [← onSnake_false_iff]
          simpa using hfree
        · subst h2
          simp only [List.length_cons] at hn
          omega

theorem initGame_some (config : Config) (canvas : Canvas) (s : State) (draws : List ℚ)
    (s1 : State) (rest : List ℚ) (h : initGame config canvas s draws = some (s1, rest)) :
    ∃ f : Cell, f ≠ centerCell config canvas ∧ s1 = resetState config canvas s f ∧
      rest.length + 2 ≤ draws.length := by
  unfold initGame at h
  simp only at h
  split at h
  · exact absurd h (by simp)
  · rename_i s2 rest2 hg
    obtain ⟨f, hf, hmem, hlen⟩ := generateFood_some _ _ _ _ _ _ hg
    simp only [Option.some.injEq, Prod.mk.injEq] at h
    obtain ⟨h1, h2⟩ := h
    subst h2
    refine ⟨f, ?_, ?_, hlen⟩
    · intro hc
      apply hmem
      simp [hc, centerCell]
    · rw [← h1, hf]
      rfl

theorem latch_snake (s : State) : (latch s).snake = s.snake := by
  unfold latch; split <;> rfl

theorem latch_food (s : State) : (latch s).food = s.food := by
  unfold latch; split <;> rfl

theorem latch_nextDirection (s : State) : (latch s).nextDirection = none := by
  unfold latch; split
  · rfl
  · assumption

theorem latch_direction (s : State) :
    (latch s).direction = (match s.nextDirection with | some d => some d | none => s.direction) := by
  unfold latch; split <;> rfl

/-- Every way in which `gameLoop` returns. -/
theorem gameLoop_inv (config : Config) (canvas : Canvas) (s : State) (draws : List ℚ)
    (r : TickResult) (s1 : State) (rest : List ℚ)
    (h : gameLoop config canvas s draws = some (r, s1, rest)) :
    (s.isPaused = true ∧ r = .paused ∧ s1 = s ∧ rest = draws) ∨
    (s.isPaused = false ∧ (latch s).direction = none ∧ r = .noDirection ∧ s1 = latch s ∧
      rest = draws) ∨
    (∃ d, s.isPaused = false ∧ (latch s).direction = some d ∧ s.snake = [] ∧ r = .moved ∧
      s1 = latch s ∧ rest = draws) ∨
    (∃ d hd tl, s.isPaused = false ∧ (latch s).direction = some d ∧ s.snake = hd :: tl ∧
      collides canvas s.snake (moveHead config d hd) = true ∧ r = .crashed ∧
      s1 = gameOver (latch s) ∧ rest = draws) ∨
    (∃ d hd tl, s.isPaused = false ∧ (latch s).direction = some d ∧ s.snake = hd :: tl ∧
      collides canvas s.snake (moveHead config d hd) = false ∧
      s.food ≠ some (moveHead config d hd) ∧ r = .moved ∧
      s1 = { latch s with snake := moveHead config d hd :: (hd :: tl).dropLast } ∧
      rest = draws) ∨
    (∃ d hd tl f, s.isPaused = false ∧ (latch s).direction = some d ∧ s.snake = hd :: tl ∧
      collides canvas s.snake (moveHead config d hd) = false ∧
      s.food = some (moveHead config d hd) ∧ r = .ateFood ∧
      s1 = { eaten config (latch s) (moveHead config d hd) with food := some f } ∧
      f ∉ moveHead config d hd :: hd :: tl ∧ rest.length + 2 ≤ draws.length) := by
  unfold gameLoop at h
  split at h
  · rename_i hp
    simp only [Option.some.injEq, Prod.mk.injEq] at h
    obtain ⟨h1, h2, h3⟩ := h
    exact Or.inl ⟨hp, h1.symm, h2.symm, h3.symm⟩
  · rename_i hp
    have hp : s.isPaused = false := by simpa using hp
    simp only at h
    split at h
    · rename_i hd
      simp only [Option.some.injEq, Prod.mk.injEq] at h
      obtain ⟨h1, h2, h3⟩ := h
      exact Or.inr (Or.inl ⟨hp, hd, h1.symm, h2.symm, h3.symm⟩)
    · rename_i d hd
      split at h
      · rename_i hs
        simp only [Option.some.injEq, Prod.mk.injEq] at h
        obtain ⟨h1, h2, h3⟩ := h
        rw [latch_snake] at hs
        exact Or.inr (Or.inr (Or.inl ⟨d, hp, hd, hs, h1.symm, h2.symm, h3.symm⟩))
      · rename_i head0 tl hs
        rw [latch_snake] at hs
        split at h
        · rename_i hc
          simp only [Option.some.injEq, Prod.mk.injEq] at h
          obtain ⟨h1, h2, h3⟩ := h
          rw [latch_snake] at hc
          exact Or.inr (Or.inr (Or.inr (Or.inl
            ⟨d, head0, tl, hp, hd, hs, hc, h1.symm, h2.symm, h3.symm⟩)))
        · rename_i hc
          rw [latch_snake] at hc
          have hc : collides canvas s.snake (moveHead config d head0) = false := by
            simpa using hc
          split at h
          · rename_i hf
            simp only [latch_food] at hf
            split at h
            · exact absurd h (by simp)
            · rename_i s5 rest5 hg
              simp only [Option.some.injEq, Prod.mk.injEq] at h
              obtain ⟨h1, h2, h3⟩ := h
              obtain ⟨f, hf5, hmem, hlen⟩ := generateFood_some _ _ _ _ _ _ hg
              refine Or.inr (Or.inr (Or.inr (Or.inr (Or.inr
                ⟨d, head0, tl, f, hp, hd, hs, hc, hf, h1.symm, ?_, ?_, ?_⟩))))
              · rw [← h2, hf5]
                unfold eaten
                split <;> simp_all
              · intro hm
                apply hmem
                split <;> simp_all [latch_snake]
              · rw [← h3]; exact hlen
          · rename_i hf
            simp only [latch_food] at hf
            simp only [Option.some.injEq, Prod.mk.injEq] at h
            obtain ⟨h1, h2, h3⟩ := h
            refine Or.inr (Or.inr (Or.inr (Or.inr (Or.inl
              ⟨d, head0, tl, hp, hd, hs, hc, hf, h1.symm, ?_, h3.symm⟩))))
            rw [← h2, latch_snake, hs]
            rfl

/-- Every way in which `startGame` returns. -/
theorem startGame_inv (config : Config) (canvas : Canvas) (s : State) (draws : List ℚ)
    (s1 : State) (rest : List ℚ) (h : startGame config canvas s draws = some (s1, rest)) :
    (s.gameStarted = true ∧ s.isPaused = false ∧ s1 = s ∧ rest = draws) ∨
    (s.gameStarted = true ∧ s.isPaused = true ∧
      s1 = { s with isPaused := false, gameInterval := some s.speed } ∧ rest = draws) ∨
    (s.gameStarted = false ∧ ∃ f, f ≠ centerCell config canvas ∧
      s1 = { resetState config canvas s f with
              gameStarted := true
              isPaused := false
              gameInterval := some config.initialSpeed }) := by
  unfold startGame at h
  split at h
  · rename_i hc
    simp only [Bool.and_eq_true, Bool.not_eq_true'] at hc
    simp only [Option.some.injEq, Prod.mk.injEq] at h
    exact Or.inl ⟨hc.1, hc.2, h.1.symm, h.2.symm⟩
  · rename_i hc
    cases hgs : s.gameStarted with
    | true =>
      have hpz : s.isPaused = true := by
        cases hpp : s.isPaused with
        | true => rfl
        | false => simp [hgs, hpp] at hc
      simp only [hgs, Bool.not_true, Bool.false_eq_true, if_false, Option.some.injEq,
        Prod.mk.injEq] at h
      exact Or.inr (Or.inl ⟨rfl, hpz, h.1.symm, h.2.symm⟩)
    | false =>
      simp only [hgs, Bool.not_false, if_true] at h
      cases hi : initGame config canvas s draws with
      | none => simp [hi] at h
      | some p =>
        obtain ⟨s2, rest2⟩ := p
        simp only [hi, Option.some.injEq, Prod.mk.injEq] at h
        obtain ⟨f, hf, hs2, -⟩ := initGame_some _ _ _ _ _ _ hi
        refine Or.inr (Or.inr ⟨rfl, f, hf, ?_⟩)
        rw [← h.1, hs2]
        rfl

theorem restartGame_inv (config : Config) (canvas : Canvas) (s : State) (draws : List ℚ)
    (s1 : State) (rest : List ℚ) (h : restartGame config canvas s draws = some (s1, rest)) :
    ∃ f, f ≠ centerCell config canvas ∧
      s1 = resetState config canvas
        { s with gameInterval := none, gameStarted := false, isPaused := false } f := by
  unfold restartGame at h
  obtain ⟨f, hf, hs1, -⟩ := initGame_some _ _ _ _ _ _ h
  exact ⟨f, hf, hs1⟩

theorem isReverse_iff (direction : Option Direction) (d : Direction) :
    isReverse direction d = true ↔ direction = some (opposite d) := by
  cases d <;> rcases direction with _ | e <;> try cases e
  all_goals simp [isReverse, opposite]

theorem opposite_opposite (d : Direction) : opposite (opposite d) = d := by
  cases d <;> rfl

theorem opposite_ne (d : Direction) : opposite d ≠ d := by
  cases d <;> simp [opposite]

/-- Every way in which `setDirection` returns. -/
theorem setDirection_inv (config : Config) (canvas : Canvas) (d : Direction) (s : State)
    (draws : List ℚ) (s1 : State) (rest : List ℚ)
    (h : setDirection config canvas d s draws = some (s1, rest)) :
    (s.gameStarted = true ∧ isReverse s.direction d = true ∧ s1 = s ∧ rest = draws) ∨
    (s.gameStarted = true ∧ isReverse s.direction d = false ∧
      s1 = { s with nextDirection := some d } ∧ rest = draws) ∨
    (s.gameStarted = false ∧ ∃ f, f ≠ centerCell config canvas ∧
      s1 = { resetState config canvas s f with
              nextDirection := some d
              gameStarted := true
              isPaused := false
              gameInterval := some config.initialSpeed }) := by
  unfold setDirection at h
  cases hgs : s.gameStarted with
  | true =>
    simp only [hgs, Bool.not_true, Bool.false_eq_true, if_false] at h
    split at h
    · rename_i hr
      simp only [Option.some.injEq, Prod.mk.injEq] at h
      exact Or.inl ⟨rfl, hr, h.1.symm, h.2.symm⟩
    · rename_i hr
      simp only [Option.some.injEq, Prod.mk.injEq] at h
      exact Or.inr (Or.inl ⟨rfl, by simpa using hr, h.1.symm, h.2.symm⟩)
  | false =>
    simp only [hgs, Bool.not_false, if_true] at h
    cases hst : startGame config canvas s draws with
    | none => simp [hst] at h
    | some p =>
      obtain ⟨s2, rest2⟩ := p
      rcases startGame_inv _ _ _ _ _ _ hst with h1 | h1 | ⟨-, f, hf, hs2⟩
      · rw [hgs] at h1; exact absurd h1.1 (by simp)
      · rw [hgs] at h1; exact absurd h1.1 (by simp)
      · simp only [hst] at h
        have hdir : s2.direction = none := by rw [hs2]; rfl
        have hnr : isReverse s2.direction d = false := by
          rw [hdir]; cases d <;> rfl
        simp only [hnr, Bool.false_eq_true, if_false, Option.some.injEq, Prod.mk.injEq] at h
        refine Or.inr (Or.inr ⟨rfl, f, hf, ?_⟩)
        rw [← h.1, hs2]

/-- The effect of every event handler on the game fields: it leaves them
alone (apart from a pending direction that is not a reversal), or it resets
the game, or it is a tick. -/
theorem applyOp_cases (config : Config) (canvas : Canvas) (op : Op) (s : State)
    (draws : List ℚ) (s1 : State) (rest : List ℚ)
    (h : applyOp config canvas op s draws = some (s1, rest)) :
    (callsInitGame op s = false ∧ op ≠ .tick ∧ SameGame s s1 ∧
      (s1.nextDirection = s.nextDirection ∨
        ∃ d, op = .setDirection d ∧ isReverse s.direction d = false ∧
          s1.nextDirection = some d)) ∨
    (callsInitGame op s = true ∧ FreshGame config canvas s s1 ∧
      (s1.nextDirection = none ∨ ∃ d, op = .setDirection d ∧ s1.nextDirection = some d)) ∨
    (op = .tick ∧ ∃ r, gameLoop config canvas s draws = some (r, s1, rest)) := by
  cases op with
  | setDirection d =>
    rcases setDirection_inv _ _ _ _ _ _ _ h with ⟨hg, _, h1, _⟩ | ⟨hg, hr, h1, _⟩ | ⟨hg, f, hf, h1⟩
    · subst h1
      exact Or.inl ⟨by simp [callsInitGame, hg], by simp, ⟨rfl, rfl, rfl, rfl, rfl, rfl, rfl⟩,
        Or.inl rfl⟩
    · subst h1
      exact Or.inl ⟨by simp [callsInitGame, hg], by simp, ⟨rfl, rfl, rfl, rfl, rfl, rfl, rfl⟩,
        Or.inr ⟨d, rfl, hr, rfl⟩⟩
    · subst h1
      exact Or.inr (Or.inl ⟨by simp [callsInitGame, hg],
        ⟨f, hf, rfl, rfl, rfl, rfl, rfl, rfl, rfl⟩, Or.inr ⟨d, rfl, rfl⟩⟩)
  | startGame =>
    rcases startGame_inv _ _ _ _ _ _ h with ⟨hg, _, h1, _⟩ | ⟨hg, _, h1, _⟩ | ⟨hg, f, hf, h1⟩
    · subst h1
      exact Or.inl ⟨by simp [callsInitGame, hg], by simp, ⟨rfl, rfl, rfl, rfl, rfl, rfl, rfl⟩,
        Or.inl rfl⟩
    · subst h1
      exact Or.inl ⟨by simp [callsInitGame, hg], by simp, ⟨rfl, rfl, rfl, rfl, rfl, rfl, rfl⟩,
        Or.inl rfl⟩
    · subst h1
      exact Or.inr (Or.inl ⟨by simp [callsInitGame, hg],
        ⟨f, hf, rfl, rfl, rfl, rfl, rfl, rfl, rfl⟩, Or.inl rfl⟩)
  | pauseGame =>
    simp only [applyOp, Option.some.injEq, Prod.mk.injEq] at h
    obtain ⟨h1, -⟩ := h
    subst h1
    exact Or.inl ⟨rfl, by simp, ⟨rfl, rfl, rfl, rfl, rfl, rfl, rfl⟩, Or.inl rfl⟩
  | togglePause =>
    simp only [applyOp, togglePause] at h
    cases hgs : s.gameStarted with
    | false =>
      simp only [hgs, Bool.not_false, if_true] at h
      rcases startGame_inv _ _ _ _ _ _ h with ⟨hg, _⟩ | ⟨hg, _⟩ | ⟨hg, f, hf, h1⟩
      · rw [hgs] at hg; exact absurd hg (by simp)
      · rw [hgs] at hg; exact absurd hg (by simp)
      · subst h1
        exact Or.inr (Or.inl ⟨by simp [callsInitGame, hg],
          ⟨f, hf, rfl, rfl, rfl, rfl, rfl, rfl, rfl⟩, Or.inl rfl⟩)
    | true =>
      simp only [hgs, Bool.not_true, Bool.false_eq_true, if_false] at h
      split at h
      · rcases startGame_inv _ _ _ _ _ _ h with ⟨hg, _, h1, _⟩ | ⟨hg, _, h1, _⟩ | ⟨hg, _⟩
        · subst h1
          exact Or.inl ⟨by simp [callsInitGame, hg], by simp,
            ⟨rfl, rfl, rfl, rfl, rfl, rfl, rfl⟩, Or.inl rfl⟩
        · subst h1
          exact Or.inl ⟨by simp [callsInitGame, hg], by simp,
            ⟨rfl, rfl, rfl, rfl, rfl, rfl, rfl⟩, Or.inl rfl⟩
        · rw [hgs] at hg; exact absurd hg (by simp)
      · simp only [Option.some.injEq, Prod.mk.injEq] at h
        obtain ⟨h1, -⟩ := h
        subst h1
        exact Or.inl ⟨by simp [callsInitGame, hgs], by simp,
          ⟨rfl, rfl, rfl, rfl, rfl, rfl, rfl⟩, Or.inl rfl⟩
  | restartGame =>
    obtain ⟨f, hf, h1⟩ := restartGame_inv _ _ _ _ _ _ h
    subst h1
    exact Or.inr (Or.inl ⟨rfl, ⟨f, hf, rfl, rfl, rfl, rfl, rfl, rfl, rfl⟩, Or.inl rfl⟩)
  | tick =>
    simp only [applyOp] at h
    cases hg : gameLoop config canvas s draws with
    | none => simp [hg] at h
    | some p =>
      obtain ⟨r, s2, rest2⟩ := p
      simp only [hg, Option.some.injEq, Prod.mk.injEq] at h
      exact Or.inr (Or.inr ⟨rfl, r, by rw [h.1, h.2]⟩)

theorem gameLoop_of_paused (config : Config) (canvas : Canvas) (s : State) (draws : List ℚ)
    (hp : s.isPaused = true) : gameLoop config canvas s draws = some (.paused, s, draws) := by
  simp [gameLoop, hp]

theorem gameLoop_of_noDirection (config : Config) (canvas : Canvas) (s : State)
    (draws : List ℚ) (hp : s.isPaused = false) (hd : (latch s).direction = none) :
    gameLoop config canvas s draws = some (.noDirection, latch s, draws) := by
  simp [gameLoop, hp, hd]

theorem gameLoop_of_collides (config : Config) (canvas : Canvas) (s : State) (draws : List ℚ)
    (d : Direction) (hd : Cell) (tl : List Cell)
    (hp : s.isPaused = false) (hdir : (latch s).direction = some d) (hs : s.snake = hd :: tl)
    (hc : collides canvas s.snake (moveHead config d hd) = true) :
    gameLoop config canvas s draws = some (.crashed, gameOver (latch s), draws) := by
  have hs1 : (latch s).snake = hd :: tl := by rw [latch_snake, hs]
  rw [hs] at hc
  simp [gameLoop, hp, hdir, hs1, hc]

theorem gameLoop_of_move (config : Config) (canvas : Canvas) (s : State) (draws : List ℚ)
    (d : Direction) (hd : Cell) (tl : List Cell)
    (hp : s.isPaused = false) (hdir : (latch s).direction = some d) (hs : s.snake = hd :: tl)
    (hc : collides canvas s.snake (moveHead config d hd) = false)
    (hf : s.food ≠ some (moveHead config d hd)) :
    gameLoop config canvas s draws =
      some (.moved, { latch s with snake := moveHead config d hd :: (hd :: tl).dropLast },
        draws) := by
  have hs1 : (latch s).snake = hd :: tl := by rw [latch_snake, hs]
  rw [hs] at hc
  simp [gameLoop, hp, hdir, hs1, hc, latch_food, hf]

theorem gameLoop_of_eat (config : Config) (canvas : Canvas) (s : State) (draws : List ℚ)
    (d : Direction) (hd : Cell) (tl : List Cell)
    (hp : s.isPaused = false) (hdir : (latch s).direction = some d) (hs : s.snake = hd :: tl)
    (hc : collides canvas s.snake (moveHead config d hd) = false)
    (hf : s.food = some (moveHead config d hd)) :
    gameLoop config canvas s draws =
      match generateFood config canvas (eaten config (latch s) (moveHead config d hd)) draws with
      | none => none
      | some (s5, rest) => some (.ateFood, s5, rest) := by
  have hs1 : (latch s).snake = hd :: tl := by rw [latch_snake, hs]
  rw [hs] at hc
  unfold eaten
  simp only [gameLoop, hp, hdir, hs1, hc, latch_food, hf]
  simp only [Bool.false_eq_true, if_false, if_true]

/-- A tick that runs and calls `gameOver` has found a collision. -/
theorem gameLoop_of_collides_inv (config : Config) (canvas : Canvas) (s : State)
    (draws : List ℚ) (d : Direction) (hd : Cell) (tl : List Cell)
    (hdir : (latch s).direction = some d) (hs : s.snake = hd :: tl) :
    ∀ s1 rest, gameLoop config canvas s draws = some (.crashed, s1, rest) →
      collides canvas s.snake (moveHead config d hd) = true := by
  intro s1 rest h
  rcases gameLoop_inv _ _ _ _ _ _ _ h with
    ⟨_, hr, _⟩ | ⟨_, _, hr, _⟩ | ⟨_, _, _, _, hr, _⟩ |
    ⟨d1, hd1, tl1, _, hdir1, hs1, hc1, _⟩ |
    ⟨_, _, _, _, _, _, _, _, hr, _⟩ | ⟨_, _, _, _, _, _, _, _, _, hr, _⟩
  · exact absurd hr (by simp)
  · exact absurd hr (by simp)
  · exact absurd hr (by simp)
  · rw [hdir] at hdir1
    rw [hs] at hs1
    simp only [Option.some.injEq, List.cons.injEq] at hdir1 hs1
    obtain ⟨hhd, htl⟩ := hs1
    subst hdir1 hhd htl
    exact hc1
  · exact absurd hr (by simp)
  · exact absurd hr (by simp)

/-- The two outcomes of a tick that returns without crashing. -/
theorem tick_outcomes (config : Config) (canvas : Canvas) (s : State)
    (draws : List ℚ) (d : Direction) (hd : Cell) (tl : List Cell)
    (hp : s.isPaused = false) (hdir : (latch s).direction = some d) (hs : s.snake = hd :: tl)
    (r : TickResult) (s1 : State) (rest : List ℚ)
    (h : gameLoop config canvas s draws = some (r, s1, rest)) (hr : r ≠ .crashed) :
    (s.food ≠ some (moveHead config d hd) ∧ r = .moved ∧
      s1.snake = moveHead config d hd :: (hd :: tl).dropLast ∧
      s1.snake.length = s.snake.length) ∨
    (s.food = some (moveHead config d hd) ∧ r = .ateFood ∧
      s1.snake = moveHead config d hd :: hd :: tl ∧
      s1.snake.length = s.snake.length + 1) := by
  rcases gameLoop_inv _ _ _ _ _ _ _ h with
    ⟨hp1, _⟩ | ⟨_, hd1, _⟩ | ⟨_, _, _, hs1, _⟩ | ⟨_, _, _, _, _, _, _, hr1, _⟩ |
    ⟨d1, hd1, tl1, _, hdir1, hs1, _, hf1, hr1, h1, _⟩ |
    ⟨d1, hd1, tl1, f, _, hdir1, hs1, _, hf1, hr1, h1, _⟩
  · rw [hp] at hp1; exact absurd hp1 (by simp)
  · rw [hdir] at hd1; exact absurd hd1 (by simp)
  · rw [hs] at hs1; exact absurd hs1 (by simp)
  · exact absurd hr1 hr
  · rw [hdir] at hdir1
    rw [hs] at hs1
    simp only [Option.some.injEq, List.cons.injEq] at hdir1 hs1
    obtain ⟨hhd, htl⟩ := hs1
    subst hdir1 hhd htl
    refine Or.inl ⟨hf1, hr1, by rw [h1], ?_⟩
    rw [h1, hs]
    simp
  · rw [hdir] at hdir1
    rw [hs] at hs1
    simp only [Option.some.injEq, List.cons.injEq] at hdir1 hs1
    obtain ⟨hhd, htl⟩ := hs1
    subst hdir1 hhd htl
    have hsn : s1.snake = moveHead config d hd :: hd :: tl := by
      rw [h1]
      unfold eaten
      split <;> simp [latch_snake, hs]
    exact Or.inr ⟨hf1, hr1, hsn, by rw [hsn, hs]; simp⟩

/-! ## The tick: movement, growth and crash -/

/-- C1: in a state that is not paused, with direction `d` in effect after the
latch and a snake `hd :: tl`, the new head is `hd` shifted by `boxSize` in
direction `d`; a tick that returns without crashing either moved (the food is
not on the new head: new head, then the old snake without its last cell, same
length) or ate (the food is on the new head: new head, then the whole old
snake, one cell longer); the moving tick always returns, and the tick fails
to return only when `generateFood` does after eating. -/
theorem gameLoop_moves_or_grows (config : Config) (canvas : Canvas) (s : State)
    (draws : List ℚ) (d : Direction) (hd : Cell) (tl : List Cell)
    (hp : s.isPaused = false) (hdir : (latch s).direction = some d) (hs : s.snake = hd :: tl) :
    (moveHead config d hd =
      match d with
      | .UP => { x := hd.x, y := hd.y - config.boxSize }
      | .DOWN => { x := hd.x, y := hd.y + config.boxSize }
      | .LEFT => { x := hd.x - config.boxSize, y := hd.y }
      | .RIGHT => { x := hd.x + config.boxSize, y := hd.y }) ∧
    (∀ r s1 rest, gameLoop config canvas s draws = some (r, s1, rest) → r ≠ .crashed →
      (s.food ≠ some (moveHead config d hd) ∧ r = .moved ∧
        s1.snake = moveHead config d hd :: (hd :: tl).dropLast ∧
        s1.snake.length = s.snake.length) ∨
      (s.food = some (moveHead config d hd) ∧ r = .ateFood ∧
        s1.snake = moveHead config d hd :: hd :: tl ∧
        s1.snake.length = s.snake.length + 1)) ∧
    (collides canvas s.snake (moveHead config d hd) = false →
      s.food ≠ some (moveHead config d hd) →
      ∃ s1, gameLoop config canvas s draws = some (.moved, s1, draws) ∧
        s1.snake = moveHead config d hd :: (hd :: tl).dropLast) ∧
    (gameLoop config canvas s draws = none ↔
      collides canvas s.snake (moveHead config d hd) = false ∧
      s.food = some (moveHead config d hd) ∧
      generateFood config canvas (eaten config (latch s) (moveHead config d hd)) draws =
        none) := by
  refine ⟨by cases d <;> rfl, ?_, ?_, ?_⟩
  · intro r s1 rest h hr
    exact tick_outcomes config canvas s draws d hd tl hp hdir hs r s1 rest h hr
  · intro hc hf
    exact ⟨_, gameLoop_of_move _ _ _ _ _ _ _ hp hdir hs hc hf, rfl⟩
  · constructor
    · intro hnone
      cases hc : collides canvas s.snake (moveHead config d hd) with
      | true =>
        rw [gameLoop_of_collides _ _ _ _ _ _ _ hp hdir hs hc] at hnone
        exact absurd hnone (by simp)
      | false =>
        by_cases hf : s.food = some (moveHead config d hd)
        · refine ⟨rfl, hf, ?_⟩
          rw [gameLoop_of_eat _ _ _ _ _ _ _ hp hdir hs hc hf] at hnone
          cases hg : generateFood config canvas
              (eaten config (latch s) (moveHead config d hd)) draws with
          | none => rfl
          | some p => simp [hg] at hnone
        · rw [gameLoop_of_move _ _ _ _ _ _ _ hp hdir hs hc hf] at hnone
          exact absurd hnone (by simp)
    · rintro ⟨hc, hf, hg⟩
      rw [gameLoop_of_eat _ _ _ _ _ _ _ hp hdir hs hc hf, hg]

/-- The scenario of C1 on the 20 x 20 grid: from the start cell (10,10) with
`UP` queued, the tick moves the head to (10,9) and the length stays 1. -/
theorem gameLoop_moves_or_grows_witness :
    ∃ s1, gameLoop shippedConfig shippedCanvas queuedUpState [] = some (.moved, s1, []) ∧
      s1.snake = [{ x := 200, y := 180 }] :=
  (gameLoop_moves_or_grows shippedConfig shippedCanvas queuedUpState [] .UP
    { x := 200, y := 200 } [] rfl rfl rfl).2.2.1 (by decide) (by decide)

theorem collides_iff (canvas : Canvas) (snake : List Cell) (head : Cell) :
    collides canvas snake head = true ↔
      head.x < 0 ∨ head.x ≥ canvas.width ∨ head.y < 0 ∨ head.y ≥ canvas.height ∨
        head ∈ snake := by
  unfold collides
  simp only [Bool.or_eq_true, decide_eq_true_eq, onSnake_iff]
  tauto

theorem gameOver_fields (s : State) :
    (gameOver s).snake = s.snake ∧ (gameOver s).food = s.food ∧
    (gameOver s).score = s.score ∧ (gameOver s).speed = s.speed ∧
    (gameOver s).direction = s.direction ∧ (gameOver s).nextDirection = s.nextDirection ∧
    (gameOver s).isPaused = s.isPaused ∧
    (gameOver s).gameStarted = false ∧ (gameOver s).gameInterval = none := by
  unfold gameOver
  simp only
  split <;> simp

theorem latch_fields (s : State) :
    (latch s).score = s.score ∧ (latch s).speed = s.speed ∧
    (latch s).highScore = s.highScore ∧ (latch s).storedHighScore = s.storedHighScore ∧
    (latch s).gameStarted = s.gameStarted ∧ (latch s).isPaused = s.isPaused ∧
    (latch s).gameInterval = s.gameInterval := by
  unfold latch
  split <;> simp

/-- C2: in a state that is not paused, with direction `d` in effect after the
latch and a snake `hd :: tl`, the tick crashes exactly when the new head is
outside the canvas or is a cell of the snake as it is before the move (its
last cell included); the crashing tick always returns, leaves snake, food and
score as they were, and sets `gameStarted` to false. -/
theorem gameLoop_crashes_iff (config : Config) (canvas : Canvas) (s : State)
    (draws : List ℚ) (d : Direction) (hd : Cell) (tl : List Cell)
    (hp : s.isPaused = false) (hdir : (latch s).direction = some d) (hs : s.snake = hd :: tl) :
    ((∃ s1 rest, gameLoop config canvas s draws = some (.crashed, s1, rest)) ↔
      (moveHead config d hd).x < 0 ∨ (moveHead config d hd).x ≥ canvas.width ∨
      (moveHead config d hd).y < 0 ∨ (moveHead config d hd).y ≥ canvas.height ∨
      moveHead config d hd ∈ hd :: tl) ∧
    (∀ s1 rest, gameLoop config canvas s draws = some (.crashed, s1, rest) →
      s1.snake = s.snake ∧ s1.food = s.food ∧ s1.score = s.score ∧
      s1.gameStarted = false ∧ s1.gameInterval = none ∧ rest = draws) := by
  have hcrash : ∀ s1 rest, gameLoop config canvas s draws = some (.crashed, s1, rest) →
      collides canvas s.snake (moveHead config d hd) = true ∧ s1 = gameOver (latch s) ∧
        rest = draws := by
    intro s1 rest h
    rcases gameLoop_inv _ _ _ _ _ _ _ h with
      ⟨_, hr, _⟩ | ⟨_, _, hr, _⟩ | ⟨_, _, _, _, hr, _⟩ |
      ⟨d1, hd1, tl1, _, hdir1, hs1, hc1, _, h1, h2⟩ |
      ⟨_, _, _, _, _, _, _, _, hr, _⟩ | ⟨_, _, _, _, _, _, _, _, _, hr, _⟩
    · exact absurd hr (by simp)
    · exact absurd hr (by simp)
    · exact absurd hr (by simp)
    · rw [hdir] at hdir1
      rw [hs] at hs1
      simp only [Option.some.injEq, List.cons.injEq] at hdir1 hs1
      obtain ⟨hhd, htl⟩ := hs1
      subst hdir1 hhd htl
      exact ⟨hc1, h1, h2⟩
    · exact absurd hr (by simp)
    · exact absurd hr (by simp)
  constructor
  · rw [← hs, ← collides_iff]
    constructor
    · rintro ⟨s1, rest, h⟩
      exact (hcrash s1 rest h).1
    · intro hc
      exact ⟨_, _, gameLoop_of_collides _ _ _ _ _ _ _ hp hdir hs hc⟩
  · intro s1 rest h
    obtain ⟨-, h1, h2⟩ := hcrash s1 rest h
    have hg := gameOver_fields (latch s)
    subst h1
    exact ⟨by rw [hg.1, latch_snake], by rw [hg.2.1, latch_food],
      by rw [hg.2.2.1, (latch_fields s).1], hg.2.2.2.2.2.2.2.1, hg.2.2.2.2.2.2.2.2, h2⟩

/-- The scenario of C2: the head on the cell (0,5) moving `LEFT` crashes. -/
theorem gameLoop_crashes_iff_witness :
    ∃ s1 rest, gameLoop shippedConfig shippedCanvas atLeftWallState [] =
      some (.crashed, s1, rest) :=
  (gameLoop_crashes_iff shippedConfig shippedCanvas atLeftWallState [] .LEFT
    { x := 0, y := 100 } [] rfl rfl rfl).1.mpr (Or.inl (by decide))

/-! ## Food placement -/

/-- C3: whatever the draws, when `generateFood` returns the food is on a
cell that is not on the snake (which it leaves as it was); so after
`initGame` the food is not on the start cell, and after an eating tick the new
food is not on the grown snake, whose new head is the old food cell. -/
theorem food_not_on_snake (config : Config) (canvas : Canvas) (s : State) (draws : List ℚ)
    (s1 : State) (rest : List ℚ) :
    (generateFood config canvas s draws = some (s1, rest) →
      ∃ f, s1.food = some f ∧ f ∉ s1.snake ∧ s1.snake = s.snake) ∧
    (initGame config canvas s draws = some (s1, rest) →
      ∃ f, s1.food = some f ∧ f ∉ s1.snake ∧ s1.snake = [centerCell config canvas] ∧
        f ≠ centerCell config canvas) ∧
    (gameLoop config canvas s draws = some (.ateFood, s1, rest) →
      ∃ f head, s1.food = some f ∧ f ∉ s1.snake ∧ s1.snake = head :: s.snake ∧
        s.food = some head ∧ f ≠ head) := by
  refine ⟨?_, ?_, ?_⟩
  · intro h
    obtain ⟨f, hf, hmem, -⟩ := generateFood_some _ _ _ _ _ _ h
    subst hf
    exact ⟨f, rfl, hmem, rfl⟩
  · intro h
    obtain ⟨f, hf, h1, -⟩ := initGame_some _ _ _ _ _ _ h
    subst h1
    exact ⟨f, rfl, by simpa [resetState] using hf, rfl, hf⟩
  · intro h
    rcases gameLoop_inv _ _ _ _ _ _ _ h with
      ⟨_, hr, _⟩ | ⟨_, _, hr, _⟩ | ⟨_, _, _, _, hr, _⟩ | ⟨_, _, _, _, _, _, _, hr, _⟩ |
      ⟨_, _, _, _, _, _, _, _, hr, _⟩ | ⟨d, hd, tl, f, _, _, hs, _, hf, _, h1, hmem, _⟩
    · exact absurd hr (by simp)
    · exact absurd hr (by simp)
    · exact absurd hr (by simp)
    · exact absurd hr (by simp)
    · exact absurd hr (by simp)
    · have hsn : s1.snake = moveHead config d hd :: s.snake := by
        rw [h1]
        unfold eaten
        split <;> simp [latch_snake]
      refine ⟨f, moveHead config d hd, by rw [h1], ?_, hsn, hf, ?_⟩
      · rw [hsn, hs]; exact hmem
      · intro hc
        exact hmem (by simp [hc])

/-- The tick of `aboutToEatState` on the draws 5/19, 4/19, 1/2, 1/2. -/
theorem gameLoop_aboutToEat :
    gameLoop shippedConfig shippedCanvas aboutToEatState [5 / 19, 4 / 19, 1 / 2, 1 / 2] =
      some (.ateFood, justAteState, []) := by
  norm_num [gameLoop, latch, aboutToEatState, moveHead, collides, onSnake, generateFood,
    shippedConfig, shippedCanvas, justAteState]

/-- The eating scenario: a snake of three cells moving `UP` onto the food at
(5,4); the first attempt of `generateFood` draws that very cell, now the head,
and is retried; the new food is not on the snake of four cells. -/
theorem food_not_on_snake_witness :
    ∃ f head, justAteState.food = some f ∧ f ∉ justAteState.snake ∧
      justAteState.snake = head :: aboutToEatState.snake ∧
      aboutToEatState.food = some head ∧ f ≠ head :=
  (food_not_on_snake shippedConfig shippedCanvas aboutToEatState
    [5 / 19, 4 / 19, 1 / 2, 1 / 2] justAteState []).2.2 gameLoop_aboutToEat

/-! ## Direction input -/

theorem reachable_of_run (config : Config) (canvas : Canvas) (s0 : State) :
    ∀ (events : List (Op × List ℚ)) (s s1 : State),
      Reachable config canvas s0 s → run config canvas events s = some s1 →
      Reachable config canvas s0 s1 := by
  intro events
  induction events with
  | nil =>
    intro s s1 hr h
    simp only [run, Option.some.injEq] at h
    exact h ▸ hr
  | cons ev events ih =>
    intro s s1 hr h
    obtain ⟨op, draws⟩ := ev
    simp only [run] at h
    cases ha : applyOp config canvas op s draws with
    | none => simp [ha] at h
    | some p =>
      obtain ⟨s2, rest⟩ := p
      simp only [ha] at h
      exact ih s2 s1 (Reachable.step op draws rest s s2 hr ha) h

theorem reachable_trans (config : Config) (canvas : Canvas) (s0 s1 s2 : State)
    (h1 : Reachable config canvas s0 s1) (h2 : Reachable config canvas s1 s2) :
    Reachable config canvas s0 s2 := by
  induction h2 with
  | refl => exact h1
  | step op draws rest s s3 _ ha ih => exact Reachable.step op draws rest s s3 ih ha

/-- An `UP` input on the freshly loaded page starts the game. -/
theorem applyOp_initial_up :
    applyOp shippedConfig shippedCanvas (.setDirection .UP) (initialState shippedConfig none)
      [0, 0] = some (startedUpState, []) := by
  norm_num [applyOp, setDirection, startGame, initGame, generateFood, onSnake, isReverse,
    initialState, shippedConfig, shippedCanvas, startedUpState]
  simp

/-- A `RIGHT` input on the freshly loaded page starts the shipped game. -/
theorem applyOp_initial_right :
    applyOp shippedConfig shippedCanvas (.setDirection .RIGHT)
      (initialState shippedConfig none) [11 / 19, 10 / 19] =
      some (startedRightState 150, []) := by
  norm_num [applyOp, setDirection, startGame, initGame, generateFood, onSnake, isReverse,
    initialState, shippedConfig, shippedCanvas, startedRightState]
  simp

/-- The first tick of that game eats. -/
theorem applyOp_tick_right :
    applyOp shippedConfig shippedCanvas .tick (startedRightState 150) [0, 0] =
      some (ateRightState 145, []) := by
  norm_num [applyOp, gameLoop, latch, startedRightState, moveHead, collides, onSnake,
    generateFood, shippedConfig, shippedCanvas, ateRightState]

/-- Eleven ticks take the started game into the top wall. -/
theorem reachable_crashedAtTop :
    Reachable shippedConfig shippedCanvas startedUpState crashedAtTopState := by
  refine reachable_of_run _ _ _
    [(.tick, []), (.tick, []), (.tick, []), (.tick, []), (.tick, []), (.tick, []),
      (.tick, []), (.tick, []), (.tick, []), (.tick, []), (.tick, [])] _ _ Reachable.refl ?_
  decide

/-- The claim C4 fails for a state in which the game is not started: after the
crash into the top wall `direction` is still `UP`, and `setDirection('DOWN')`
restarts the game and leaves `DOWN` pending.  The state is reached from the
initial state by an `UP` input and eleven ticks. -/
theorem setDirection_reversal_after_crash :
    Reachable shippedConfig shippedCanvas (initialState shippedConfig none) crashedAtTopState ∧
    crashedAtTopState.direction = some .UP ∧
    setDirection shippedConfig shippedCanvas .DOWN crashedAtTopState [1 / 2, 1 / 2] =
      some (restartedDownState, []) ∧
    restartedDownState.nextDirection = some .DOWN ∧
    restartedDownState.snake ≠ crashedAtTopState.snake ∧
    restartedDownState.gameStarted ≠ crashedAtTopState.gameStarted := by
  refine ⟨?_, rfl, ?_, rfl, by decide, by decide⟩
  · exact reachable_trans _ _ _ _ _
      (Reachable.step _ _ _ _ _ Reachable.refl applyOp_initial_up) reachable_crashedAtTop
  · norm_num [setDirection, startGame, initGame, generateFood, onSnake, isReverse,
      crashedAtTopState, restartedDownState, shippedConfig, shippedCanvas]
    simp

/-- C4, amended: when the game is started and `direction` is `d`, a request
for the opposite of `d` is rejected: `setDirection` returns with the state, the
pending direction included, exactly as it was, and uses no draw. -/
theorem setDirection_rejects_reversal (config : Config) (canvas : Canvas) (s : State)
    (draws : List ℚ) (d : Direction)
    (hg : s.gameStarted = true) (hd : s.direction = some d) :
    setDirection config canvas (opposite d) s draws = some (s, draws) := by
  have hr : isReverse s.direction (opposite d) = true := by
    rw [isReverse_iff, opposite_opposite, hd]
  simp [setDirection, hg, hr]

/-- A snake moving `UP` in a running game ignores `DOWN`. -/
theorem setDirection_rejects_reversal_witness :
    setDirection shippedConfig shippedCanvas .DOWN aboutToEatState [] =
      some (aboutToEatState, []) :=
  setDirection_rejects_reversal shippedConfig shippedCanvas aboutToEatState [] .UP rfl rfl

/-! ## Invariants of the reachable states -/

/-- A property that every event handler preserves holds in every state
reached from a state in which it holds. -/
theorem reachable_induction (config : Config) (canvas : Canvas) (P : State → Prop)
    (hstep : ∀ op s draws s1 rest, P s → applyOp config canvas op s draws = some (s1, rest) →
      P s1)
    (s0 s : State) (h0 : P s0) (hr : Reachable config canvas s0 s) : P s := by
  induction hr with
  | refl => exact h0
  | step op draws rest s s1 _ ha ih => exact hstep op s draws s1 rest ih ha

/-- What a returning tick does to the snake: nothing, or a new head that the
collision test has found off the snake, in front of the old snake with or
without its last cell. -/
theorem gameLoop_snake (config : Config) (canvas : Canvas) (s : State) (draws : List ℚ)
    (r : TickResult) (s1 : State) (rest : List ℚ)
    (h : gameLoop config canvas s draws = some (r, s1, rest)) :
    s1.snake = s.snake ∨
    ∃ head, head ∉ s.snake ∧ s.snake ≠ [] ∧
      (s1.snake = head :: s.snake.dropLast ∨ s1.snake = head :: s.snake) := by
  rcases gameLoop_inv _ _ _ _ _ _ _ h with
    ⟨_, _, h1, _⟩ | ⟨_, _, _, h1, _⟩ | ⟨_, _, _, _, _, h1, _⟩ | ⟨_, _, _, _, _, _, _, _, h1, _⟩ |
    ⟨d, hd, tl, _, _, hs, hc, _, _, h1, _⟩ | ⟨d, hd, tl, f, _, _, hs, hc, _, _, h1, _⟩
  · exact Or.inl (by rw [h1])
  · exact Or.inl (by rw [h1, latch_snake])
  · exact Or.inl (by rw [h1, latch_snake])
  · exact Or.inl (by rw [h1, (gameOver_fields _).1, latch_snake])
  · have hnot : moveHead config d hd ∉ s.snake := by
      intro hm
      have := (collides_iff canvas s.snake _).mpr (Or.inr (Or.inr (Or.inr (Or.inr hm))))
      rw [hc] at this
      exact absurd this (by simp)
    exact Or.inr ⟨_, hnot, by rw [hs]; simp, Or.inl (by rw [h1, hs])⟩
  · have hnot : moveHead config d hd ∉ s.snake := by
      intro hm
      have := (collides_iff canvas s.snake _).mpr (Or.inr (Or.inr (Or.inr (Or.inr hm))))
      rw [hc] at this
      exact absurd this (by simp)
    refine Or.inr ⟨_, hnot, by rw [hs]; simp, Or.inr ?_⟩
    rw [h1]
    unfold eaten
    split <;> simp [latch_snake]

/-- What a returning tick does to the two direction variables: nothing when
paused, otherwise the latch. -/
theorem gameLoop_direction (config : Config) (canvas : Canvas) (s : State) (draws : List ℚ)
    (r : TickResult) (s1 : State) (rest : List ℚ)
    (h : gameLoop config canvas s draws = some (r, s1, rest)) :
    (s1.direction = s.direction ∧ s1.nextDirection = s.nextDirection) ∨
    (s1.direction = (latch s).direction ∧ s1.nextDirection = none) := by
  rcases gameLoop_inv _ _ _ _ _ _ _ h with
    ⟨_, _, h1, _⟩ | ⟨_, _, _, h1, _⟩ | ⟨_, _, _, _, _, h1, _⟩ | ⟨_, _, _, _, _, _, _, _, h1, _⟩ |
    ⟨d, hd, tl, _, _, hs, hc, _, _, h1, _⟩ | ⟨d, hd, tl, f, _, _, hs, hc, _, _, h1, _⟩
  · exact Or.inl (by rw [h1]; exact ⟨rfl, rfl⟩)
  · exact Or.inr (by rw [h1]; exact ⟨rfl, latch_nextDirection s⟩)
  · exact Or.inr (by rw [h1]; exact ⟨rfl, latch_nextDirection s⟩)
  · refine Or.inr ?_
    rw [h1, (gameOver_fields _).2.2.2.2.1, (gameOver_fields _).2.2.2.2.2.1]
    exact ⟨rfl, latch_nextDirection s⟩
  · exact Or.inr (by rw [h1]; exact ⟨rfl, latch_nextDirection s⟩)
  · refine Or.inr ?_
    rw [h1]
    unfold eaten
    split <;> exact ⟨rfl, latch_nextDirection s⟩

theorem nodup_step (config : Config) (canvas : Canvas) (op : Op) (s : State)
    (draws : List ℚ) (s1 : State) (rest : List ℚ) (hn : s.snake.Nodup)
    (h : applyOp config canvas op s draws = some (s1, rest)) : s1.snake.Nodup := by
  rcases applyOp_cases _ _ _ _ _ _ _ h with ⟨_, _, hsame, _⟩ | ⟨_, hfresh, _⟩ | ⟨_, r, hg⟩
  · rw [hsame.1]; exact hn
  · obtain ⟨f, _, hsn, _⟩ := hfresh
    rw [hsn]; simp
  · rcases gameLoop_snake _ _ _ _ _ _ _ hg with h1 | ⟨head, hnot, _, h1 | h1⟩
    · rw [h1]; exact hn
    · rw [h1]
      refine List.nodup_cons.mpr ⟨?_, hn.sublist (List.dropLast_sublist _)⟩
      intro hm
      exact hnot ((List.dropLast_sublist _).subset hm)
    · rw [h1]
      exact List.nodup_cons.mpr ⟨hnot, hn⟩

theorem nonempty_step (config : Config) (canvas : Canvas) (op : Op) (s : State)
    (draws : List ℚ) (s1 : State) (rest : List ℚ) (hn : s.snake ≠ [])
    (h : applyOp config canvas op s draws = some (s1, rest)) : s1.snake ≠ [] := by
  rcases applyOp_cases _ _ _ _ _ _ _ h with ⟨_, _, hsame, _⟩ | ⟨_, hfresh, _⟩ | ⟨_, r, hg⟩
  · rw [hsame.1]; exact hn
  · obtain ⟨f, _, hsn, _⟩ := hfresh
    rw [hsn]; simp
  · rcases gameLoop_snake _ _ _ _ _ _ _ hg with h1 | ⟨head, hnot, _, h1 | h1⟩
    · rw [h1]; exact hn
    · rw [h1]; simp
    · rw [h1]; simp

theorem noReversal_step (config : Config) (canvas : Canvas) (op : Op) (s : State)
    (draws : List ℚ) (s1 : State) (rest : List ℚ)
    (hn : ∀ d, s.direction = some d → s.nextDirection ≠ some (opposite d))
    (h : applyOp config canvas op s draws = some (s1, rest)) :
    ∀ d, s1.direction = some d → s1.nextDirection ≠ some (opposite d) := by
  intro d hd
  rcases applyOp_cases _ _ _ _ _ _ _ h with
    ⟨_, _, hsame, hnext | ⟨e, _, hrev, hnext⟩⟩ | ⟨_, hfresh, _⟩ | ⟨_, r, hg⟩
  · rw [hnext]
    exact hn d (by rw [← hsame.2.2.1]; exact hd)
  · rw [hnext]
    intro he
    simp only [Option.some.injEq] at he
    have hsd : s.direction = some (opposite e) := by
      rw [← hsame.2.2.1, hd, he, opposite_opposite]
    rw [(isReverse_iff _ _).mpr hsd] at hrev
    exact absurd hrev (by simp)
  · obtain ⟨f, _, _, _, hdir, _⟩ := hfresh
    rw [hdir] at hd
    exact absurd hd (by simp)
  · rcases gameLoop_direction _ _ _ _ _ _ _ hg with ⟨h1, h2⟩ | ⟨_, h2⟩
    · rw [h2]
      exact hn d (by rw [← h1]; exact hd)
    · rw [h2]; simp

theorem initialState_inv (config : Config) (canvas : Canvas) (stored : Option Nat) (s : State)
    (hr : Reachable config canvas (initialState config stored) s) :
    s.snake.Nodup ∧ ∀ d, s.direction = some d → s.nextDirection ≠ some (opposite d) := by
  refine reachable_induction config canvas
    (fun s => s.snake.Nodup ∧ ∀ d, s.direction = some d → s.nextDirection ≠ some (opposite d))
    ?_ _ s ?_ hr
  · intro op s draws s1 rest hP ha
    exact ⟨nodup_step _ _ _ _ _ _ _ hP.1 ha, noReversal_step _ _ _ _ _ _ _ hP.2 ha⟩
  · exact ⟨by simp [initialState], by intro d hd; simp [initialState] at hd⟩

/-- C5: in every state reached from the initial state by direction inputs,
start, pause, toggle, restart and ticks, the pending direction is not the
opposite of the current direction; so no tick turns a direction into its
opposite, and no tick puts the head of the snake on its second cell. -/
theorem no_reversal (config : Config) (canvas : Canvas) (stored : Option Nat) (s : State)
    (hr : Reachable config canvas (initialState config stored) s) :
    (∀ d, s.direction = some d → s.nextDirection ≠ some (opposite d)) ∧
    (∀ draws r s1 rest d, gameLoop config canvas s draws = some (r, s1, rest) →
      s.direction = some d → s1.direction ≠ some (opposite d)) ∧
    (∀ draws r s1 rest c1 c2 tl, gameLoop config canvas s draws = some (r, s1, rest) →
      s.snake = c1 :: c2 :: tl → s1.snake.head? ≠ some c2) := by
  obtain ⟨hnodup, hinv⟩ := initialState_inv config canvas stored s hr
  refine ⟨hinv, ?_, ?_⟩
  · intro draws r s1 rest d hg hd
    rcases gameLoop_direction _ _ _ _ _ _ _ hg with ⟨h1, _⟩ | ⟨h1, _⟩
    · rw [h1, hd]
      intro he
      simp only [Option.some.injEq] at he
      exact opposite_ne d he.symm
    · rw [h1, latch_direction]
      cases hnx : s.nextDirection with
      | none =>
        simp only [hd]
        intro he
        simp only [Option.some.injEq] at he
        exact opposite_ne d he.symm
      | some e =>
        simp only
        intro he
        exact hinv d hd (by rw [hnx, he])
  · intro draws r s1 rest c1 c2 tl hg hs
    rw [hs] at hnodup
    have hne : c1 ≠ c2 := by
      intro he
      rw [he] at hnodup
      simp at hnodup
    rcases gameLoop_snake _ _ _ _ _ _ _ hg with h1 | ⟨head, hnot, _, h1 | h1⟩
    · rw [h1, hs]
      simpa using hne
    · rw [h1]
      simp only [List.head?_cons, ne_eq, Option.some.injEq]
      intro he
      exact hnot (by rw [he, hs]; simp)
    · rw [h1]
      simp only [List.head?_cons, ne_eq, Option.some.injEq]
      intro he
      exact hnot (by rw [he, hs]; simp)

/-- After an `UP` input and eleven ticks the direction is `UP` and no `DOWN`
is pending. -/
theorem no_reversal_witness : crashedAtTopState.nextDirection ≠ some .DOWN :=
  (no_reversal shippedConfig shippedCanvas none crashedAtTopState
    (reachable_trans _ _ _ _ _
      (Reachable.step _ _ _ _ _ Reachable.refl applyOp_initial_up)
      reachable_crashedAtTop)).1 .UP rfl

/-- C6: when an event handler has called `initGame` (the first reset or a
later one), the snake is non-empty and has no two equal cells in the state it
leaves and in every state reached from there. -/
theorem snake_nonempty_nodup (config : Config) (canvas : Canvas) (op : Op) (s0 : State)
    (draws : List ℚ) (s1 : State) (rest : List ℚ) (s : State)
    (h0 : applyOp config canvas op s0 draws = some (s1, rest))
    (hreset : callsInitGame op s0 = true)
    (hr : Reachable config canvas s1 s) :
    s.snake ≠ [] ∧ s.snake.Nodup := by
  refine reachable_induction config canvas (fun s => s.snake ≠ [] ∧ s.snake.Nodup)
    ?_ _ s ?_ hr
  · intro op s draws s1 rest hP ha
    exact ⟨nonempty_step _ _ _ _ _ _ _ hP.1 ha, nodup_step _ _ _ _ _ _ _ hP.2 ha⟩
  · rcases applyOp_cases _ _ _ _ _ _ _ h0 with ⟨hc, _⟩ | ⟨_, hfresh, _⟩ | ⟨ht, _⟩
    · rw [hreset] at hc
      exact absurd hc (by simp)
    · obtain ⟨f, _, hsn, _⟩ := hfresh
      rw [hsn]
      simp
    · subst ht
      simp [callsInitGame] at hreset

/-- The game started by a `RIGHT` input, after its first tick has eaten: a
snake of two distinct cells. -/
theorem snake_nonempty_nodup_witness :
    (ateRightState 145).snake ≠ [] ∧ (ateRightState 145).snake.Nodup :=
  snake_nonempty_nodup shippedConfig shippedCanvas (.setDirection .RIGHT)
    (initialState shippedConfig none) [11 / 19, 10 / 19] (startedRightState 150) []
    (ateRightState 145) applyOp_initial_right rfl
    (Reachable.step _ _ _ _ _ Reachable.refl applyOp_tick_right)

/-! ## Speed -/

/-- What a returning tick does to `speed`. -/
theorem gameLoop_speed (config : Config) (canvas : Canvas) (s : State) (draws : List ℚ)
    (r : TickResult) (s1 : State) (rest : List ℚ)
    (h : gameLoop config canvas s draws = some (r, s1, rest)) :
    (r = .ateFood →
      s1.speed = if s.speed > config.maxSpeed then s.speed - config.speedIncrease
        else s.speed) ∧
    (r ≠ .ateFood → s1.speed = s.speed) := by
  rcases gameLoop_inv _ _ _ _ _ _ _ h with
    ⟨_, hr, h1, _⟩ | ⟨_, _, hr, h1, _⟩ | ⟨_, _, _, _, hr, h1, _⟩ |
    ⟨_, _, _, _, _, _, _, hr, h1, _⟩ |
    ⟨d, hd, tl, _, _, _, _, _, hr, h1, _⟩ | ⟨d, hd, tl, f, _, _, _, _, _, hr, h1, _⟩
  · subst hr h1; simp
  · subst hr h1; simp [(latch_fields s).2.1]
  · subst hr h1; simp [(latch_fields s).2.1]
  · subst hr h1; simp [(gameOver_fields (latch s)).2.2.2.1, (latch_fields s).2.1]
  · subst hr h1; simp [(latch_fields s).2.1]
  · subst hr h1
    refine ⟨fun _ => ?_, fun hne => absurd rfl hne⟩
    unfold eaten
    rw [(latch_fields s).2.1]
    split <;> simp [(latch_fields s).2.1]

theorem speed_step (config : Config) (canvas : Canvas) (hinc : config.speedIncrease > 0)
    (op : Op) (s : State) (draws : List ℚ) (s1 : State) (rest : List ℚ)
    (hP : s.speed ≤ config.initialSpeed ∧ s.speed > config.maxSpeed - config.speedIncrease ∧
      config.speedIncrease ∣ config.initialSpeed - s.speed)
    (h : applyOp config canvas op s draws = some (s1, rest)) :
    s1.speed ≤ config.initialSpeed ∧ s1.speed > config.maxSpeed - config.speedIncrease ∧
      config.speedIncrease ∣ config.initialSpeed - s1.speed := by
  rcases applyOp_cases _ _ _ _ _ _ _ h with ⟨_, _, hsame, _⟩ | ⟨_, hfresh, _⟩ | ⟨_, r, hg⟩
  · rw [hsame.2.2.2.2.1]; exact hP
  · obtain ⟨f, _, _, _, _, _, hsp, _⟩ := hfresh
    rw [hsp]
    exact ⟨le_refl _, by omega, by simp⟩
  · obtain ⟨hate, hother⟩ := gameLoop_speed _ _ _ _ _ _ _ hg
    by_cases hr : r = .ateFood
    · rw [hate hr]
      split
      · rename_i hgt
        refine ⟨by omega, by omega, ?_⟩
        have : config.initialSpeed - (s.speed - config.speedIncrease) =
            (config.initialSpeed - s.speed) + config.speedIncrease := by ring
        rw [this]
        exact dvd_add hP.2.2 (dvd_refl _)
      · exact hP
    · rw [hother hr]; exact hP

/-- The claim C7 fails for the configuration 52 / 5 / 50: the first eating
tick after the reset lowers the tick interval from 52 to 47, below
`maxSpeed`. -/
theorem speed_below_maxSpeed :
    tightConfig.initialSpeed ≥ tightConfig.maxSpeed ∧ tightConfig.speedIncrease > 0 ∧
    applyOp tightConfig shippedCanvas (.setDirection .RIGHT) (initialState tightConfig none)
      [11 / 19, 10 / 19] = some (startedRightState 52, []) ∧
    callsInitGame (.setDirection .RIGHT) (initialState tightConfig none) = true ∧
    gameLoop tightConfig shippedCanvas (startedRightState 52) [0, 0] =
      some (.ateFood, ateRightState 47, []) ∧
    (ateRightState 47).speed < tightConfig.maxSpeed := by
  refine ⟨by decide, by decide, ?_, rfl, ?_, by decide⟩
  · norm_num [applyOp, setDirection, startGame, initGame, generateFood, onSnake, isReverse,
      initialState, tightConfig, shippedCanvas, startedRightState]
    simp
  · norm_num [gameLoop, latch, startedRightState, moveHead, collides, onSnake, generateFood,
      tightConfig, shippedCanvas, ateRightState]

/-- C7, amended: for a configuration with `initialSpeed ≥ maxSpeed` and
`speedIncrease > 0`, in every state reached after a reset, an eating tick
lowers `speed` by exactly `speedIncrease` when it is above `maxSpeed` and
leaves it otherwise, every other tick leaves it, and `speed` stays above
`maxSpeed - speedIncrease` and at most `initialSpeed`; it is never below
`maxSpeed` when `speedIncrease` divides `initialSpeed - maxSpeed`, as in the
shipped configuration. -/
theorem speed_floor (config : Config) (canvas : Canvas)
    (hinit : config.initialSpeed ≥ config.maxSpeed) (hinc : config.speedIncrease > 0)
    (op : Op) (s0 : State) (draws0 : List ℚ) (s1 : State) (rest0 : List ℚ) (s : State)
    (h0 : applyOp config canvas op s0 draws0 = some (s1, rest0))
    (hreset : callsInitGame op s0 = true)
    (hr : Reachable config canvas s1 s) :
    (∀ draws r s2 rest, gameLoop config canvas s draws = some (r, s2, rest) →
      (r = .ateFood →
        s2.speed = if s.speed > config.maxSpeed then s.speed - config.speedIncrease
          else s.speed) ∧
      (r ≠ .ateFood → s2.speed = s.speed)) ∧
    config.maxSpeed - config.speedIncrease < s.speed ∧
    s.speed ≤ config.initialSpeed ∧
    (config.speedIncrease ∣ config.initialSpeed - config.maxSpeed →
      config.maxSpeed ≤ s.speed) := by
  have hinv : s.speed ≤ config.initialSpeed ∧
      s.speed > config.maxSpeed - config.speedIncrease ∧
      config.speedIncrease ∣ config.initialSpeed - s.speed := by
    refine reachable_induction config canvas
      (fun s => s.speed ≤ config.initialSpeed ∧
        s.speed > config.maxSpeed - config.speedIncrease ∧
        config.speedIncrease ∣ config.initialSpeed - s.speed) ?_ _ s ?_ hr
    · intro op s draws s1 rest hP ha
      exact speed_step config canvas hinc op s draws s1 rest hP ha
    · rcases applyOp_cases _ _ _ _ _ _ _ h0 with ⟨hc, _⟩ | ⟨_, hfresh, _⟩ | ⟨ht, _⟩
      · rw [hreset] at hc
        exact absurd hc (by simp)
      · obtain ⟨f, _, _, _, _, _, hsp, _⟩ := hfresh
        rw [hsp]
        exact ⟨le_refl _, by omega, by simp⟩
      · subst ht
        simp [callsInitGame] at hreset
  refine ⟨fun draws r s2 rest hg => gameLoop_speed _ _ _ _ _ _ _ hg, hinv.2.1, hinv.1, ?_⟩
  intro hdvd
  have hd : config.speedIncrease ∣ s.speed - config.maxSpeed := by
    have : s.speed - config.maxSpeed =
        (config.initialSpeed - config.maxSpeed) - (config.initialSpeed - s.speed) := by ring
    rw [this]
    exact dvd_sub hdvd hinv.2.2
  obtain ⟨k, hk⟩ := hd
  have hlow := hinv.2.1
  by_contra hlt
  have hneg : config.speedIncrease * k < 0 := by omega
  have hk0 : k < 0 := by
    by_contra hk0
    have : 0 ≤ config.speedIncrease * k := mul_nonneg (le_of_lt hinc) (not_lt.mp hk0)
    omega
  have hk1 : k ≤ -1 := by omega
  have : config.speedIncrease * k ≤ config.speedIncrease * (-1) :=
    mul_le_mul_of_nonneg_left hk1 (le_of_lt hinc)
  omega

/-- The shipped game after its first eating tick runs at 145, above the
floor 50. -/
theorem speed_floor_witness :
    shippedConfig.maxSpeed ≤ (ateRightState 145).speed :=
  (speed_floor shippedConfig shippedCanvas (by decide) (by decide) (.setDirection .RIGHT)
    (initialState shippedConfig none) [11 / 19, 10 / 19] (startedRightState 150) []
    (ateRightState 145) applyOp_initial_right rfl
    (Reachable.step _ _ _ _ _ Reachable.refl applyOp_tick_right)).2.2.2 (by decide)

/-! ## Score and high score -/

/-- What a returning tick does to `score`. -/
theorem gameLoop_score (config : Config) (canvas : Canvas) (s : State) (draws : List ℚ)
    (r : TickResult) (s1 : State) (rest : List ℚ)
    (h : gameLoop config canvas s draws = some (r, s1, rest)) :
    (r = .ateFood → s1.score = s.score + 1) ∧ (r ≠ .ateFood → s1.score = s.score) := by
  rcases gameLoop_inv _ _ _ _ _ _ _ h with
    ⟨_, hr, h1, _⟩ | ⟨_, _, hr, h1, _⟩ | ⟨_, _, _, _, hr, h1, _⟩ |
    ⟨_, _, _, _, _, _, _, hr, h1, _⟩ |
    ⟨d, hd, tl, _, _, _, _, _, hr, h1, _⟩ | ⟨d, hd, tl, f, _, _, _, _, _, hr, h1, _⟩
  · subst hr h1; simp
  · subst hr h1; simp [(latch_fields s).1]
  · subst hr h1; simp [(latch_fields s).1]
  · subst hr h1; simp [(gameOver_fields (latch s)).2.2.1, (latch_fields s).1]
  · subst hr h1; simp [(latch_fields s).1]
  · subst hr h1
    refine ⟨fun _ => ?_, fun hne => absurd rfl hne⟩
    unfold eaten
    split <;> simp [(latch_fields s).1]

/-- C8: `score` is a natural number; `pauseGame`, `gameOver` (the crash) and
`setDirection` in a started game leave it; a tick adds exactly 1 when it eats
and leaves it otherwise, and a tick that returns without crashing eats exactly
when the new head is the food cell; every handler that does not call
`initGame` leaves `score` or increases it, and every handler that calls
`initGame` sets it to 0. -/
theorem score_monotone (config : Config) (canvas : Canvas) (s : State) (draws : List ℚ) :
    (pauseGame s).score = s.score ∧ (gameOver s).score = s.score ∧
    (∀ d s1 rest, s.gameStarted = true →
      setDirection config canvas d s draws = some (s1, rest) → s1.score = s.score) ∧
    (∀ r s1 rest, gameLoop config canvas s draws = some (r, s1, rest) →
      (r = .ateFood → s1.score = s.score + 1) ∧ (r ≠ .ateFood → s1.score = s.score)) ∧
    (∀ d hd tl r s1 rest, s.isPaused = false → (latch s).direction = some d →
      s.snake = hd :: tl → gameLoop config canvas s draws = some (r, s1, rest) →
      r ≠ .crashed → (r = .ateFood ↔ s.food = some (moveHead config d hd))) ∧
    (∀ op s1 rest, applyOp config canvas op s draws = some (s1, rest) →
      (callsInitGame op s = true → s1.score = 0) ∧
      (callsInitGame op s = false → s.score ≤ s1.score)) := by
  refine ⟨rfl, (gameOver_fields s).2.2.1, ?_, ?_, ?_, ?_⟩
  · intro d s1 rest hg h
    rcases setDirection_inv _ _ _ _ _ _ _ h with ⟨_, _, h1, _⟩ | ⟨_, _, h1, _⟩ | ⟨hg0, _⟩
    · rw [h1]
    · rw [h1]
    · rw [hg] at hg0; exact absurd hg0 (by simp)
  · intro r s1 rest h
    exact gameLoop_score _ _ _ _ _ _ _ h
  · intro d hd tl r s1 rest hp hdir hs h hr
    rcases (tick_outcomes config canvas s draws d hd tl hp hdir hs r s1 rest h hr)
      with ⟨hf, hm, _⟩ | ⟨hf, ha, _⟩
    · rw [hm]
      simp [hf]
    · rw [ha]
      simp [hf]
  · intro op s1 rest h
    rcases applyOp_cases _ _ _ _ _ _ _ h with ⟨hc, _, hsame, _⟩ | ⟨hc, hfresh, _⟩ | ⟨ht, r, hg⟩
    · exact ⟨fun hc1 => by rw [hc] at hc1; exact absurd hc1 (by simp),
        fun _ => by rw [hsame.2.2.2.1]⟩
    · obtain ⟨f, _, _, _, _, hsc, _⟩ := hfresh
      exact ⟨fun _ => hsc, fun hc1 => by rw [hc] at hc1; exact absurd hc1 (by simp)⟩
    · subst ht
      refine ⟨fun hc1 => by simp [callsInitGame] at hc1, fun _ => ?_⟩
      obtain ⟨hate, hother⟩ := gameLoop_score _ _ _ _ _ _ _ hg
      by_cases hr : r = .ateFood
      · rw [hate hr]; omega
      · rw [hother hr]

/-- The eating scenario: the tick takes the score from 0 to 1. -/
theorem score_monotone_witness : justAteState.score = aboutToEatState.score + 1 :=
  ((score_monotone shippedConfig shippedCanvas aboutToEatState
    [5 / 19, 4 / 19, 1 / 2, 1 / 2]).2.2.2.1 .ateFood justAteState [] gameLoop_aboutToEat).1 rfl

theorem gameOver_highScore (s : State) :
    (gameOver s).highScore = (if s.score > s.highScore then s.score else s.highScore) ∧
    (gameOver s).storedHighScore =
      (if s.score > s.highScore then some s.score else s.storedHighScore) := by
  unfold gameOver
  simp only
  split <;> simp

/-- What an event handler does to the two copies of the high score: nothing,
unless it is a crashing tick with the score above the high score. -/
theorem highScore_step (config : Config) (canvas : Canvas) (op : Op) (s : State)
    (draws : List ℚ) (s1 : State) (rest : List ℚ)
    (h : applyOp config canvas op s draws = some (s1, rest)) :
    (s1.highScore = s.highScore ∧ s1.storedHighScore = s.storedHighScore) ∨
    (op = .tick ∧ gameLoop config canvas s draws = some (.crashed, s1, rest) ∧
      s.score > s.highScore ∧ s1.highScore = s.score ∧ s1.storedHighScore = some s.score) := by
  rcases applyOp_cases _ _ _ _ _ _ _ h with ⟨_, _, hsame, _⟩ | ⟨_, hfresh, _⟩ | ⟨ht, r, hg⟩
  · exact Or.inl ⟨hsame.2.2.2.2.2.1, hsame.2.2.2.2.2.2⟩
  · obtain ⟨f, _, _, _, _, _, _, hh, hst⟩ := hfresh
    exact Or.inl ⟨hh, hst⟩
  · have hl := latch_fields s
    rcases gameLoop_inv _ _ _ _ _ _ _ hg with
      ⟨_, _, h1, _⟩ | ⟨_, _, _, h1, _⟩ | ⟨_, _, _, _, _, h1, _⟩ |
      ⟨_, _, _, _, _, _, _, hr, h1, _⟩ |
      ⟨d, hd, tl, _, _, _, _, _, _, h1, _⟩ | ⟨d, hd, tl, f, _, _, _, _, _, _, h1, _⟩
    · subst h1; exact Or.inl ⟨rfl, rfl⟩
    · subst h1; exact Or.inl ⟨hl.2.2.1, hl.2.2.2.1⟩
    · subst h1; exact Or.inl ⟨hl.2.2.1, hl.2.2.2.1⟩
    · have hgo := gameOver_highScore (latch s)
      rw [hl.1, hl.2.2.1, hl.2.2.2.1] at hgo
      by_cases hgt : s.score > s.highScore
      · refine Or.inr ⟨ht, ?_, hgt, ?_, ?_⟩
        · rw [← hr]; exact hg
        · rw [h1, hgo.1, if_pos hgt]
        · rw [h1, hgo.2, if_pos hgt]
      · refine Or.inl ⟨?_, ?_⟩
        · rw [h1, hgo.1, if_neg hgt]
        · rw [h1, hgo.2, if_neg hgt]
    · subst h1; exact Or.inl ⟨hl.2.2.1, hl.2.2.2.1⟩
    · subst h1
      refine Or.inl ?_
      unfold eaten
      split <;> exact ⟨hl.2.2.1, hl.2.2.2.1⟩

/-- C9: at a game over with score `s.score` and cached high score
`s.highScore`, both the cached and the stored high score become the score when
it is greater, and both stay otherwise; every other handler leaves both, so
the cached high score never decreases along any sequence of events, and from
the initial state the cached copy stays equal to the stored one and at least
the value loaded at the start. -/
theorem highScore_monotone (config : Config) (canvas : Canvas) (s : State) :
    ((gameOver s).highScore = (if s.score > s.highScore then s.score else s.highScore) ∧
      (gameOver s).storedHighScore =
        (if s.score > s.highScore then some s.score else s.storedHighScore)) ∧
    (∀ op draws s1 rest, applyOp config canvas op s draws = some (s1, rest) →
      (s1.highScore = s.highScore ∧ s1.storedHighScore = s.storedHighScore) ∨
      (op = .tick ∧ gameLoop config canvas s draws = some (.crashed, s1, rest) ∧
        s.score > s.highScore ∧ s1.highScore = s.score ∧
        s1.storedHighScore = some s.score)) ∧
    (∀ s1, Reachable config canvas s s1 → s.highScore ≤ s1.highScore) ∧
    (∀ stored, Reachable config canvas (initialState config stored) s →
      s.highScore = s.storedHighScore.getD 0 ∧ stored.getD 0 ≤ s.highScore) := by
  refine ⟨gameOver_highScore s, fun op draws s1 rest h => highScore_step _ _ _ _ _ _ _ h,
    ?_, ?_⟩
  · intro s1 hr
    refine reachable_induction config canvas (fun t => s.highScore ≤ t.highScore) ?_ _ s1
      (le_refl _) hr
    intro op t draws t1 rest hP ha
    rcases highScore_step _ _ _ _ _ _ _ ha with ⟨h1, _⟩ | ⟨_, _, hgt, h1, _⟩
    · rw [h1]; exact hP
    · rw [h1]; omega
  · intro stored hr
    refine reachable_induction config canvas
      (fun t => t.highScore = t.storedHighScore.getD 0 ∧ stored.getD 0 ≤ t.highScore) ?_ _ s
      ⟨rfl, le_refl _⟩ hr
    intro op t draws t1 rest hP ha
    rcases highScore_step _ _ _ _ _ _ _ ha with ⟨h1, h2⟩ | ⟨_, _, hgt, h1, h2⟩
    · rw [h1, h2]; exact hP
    · rw [h1, h2]
      exact ⟨rfl, by omega⟩

/-- A crash with score 3 and high score 1 leaves 3 in the cached and in the
stored high score. -/
theorem highScore_monotone_witness :
    (gameOver scoredAtWallState).highScore = 3 ∧
    (gameOver scoredAtWallState).storedHighScore = some 3 :=
  (highScore_monotone shippedConfig shippedCanvas scoredAtWallState).1

/-! ## The idle tick -/

/-- C10: when `direction` and `nextDirection` are both unset, a tick returns
the state exactly as it was, snake, food, score, speed, direction and flags
included, through the pause guard or the `default` branch, never through
`gameOver`. -/
theorem gameLoop_idle (config : Config) (canvas : Canvas) (s : State) (draws : List ℚ)
    (hd : s.direction = none) (hn : s.nextDirection = none) :
    gameLoop config canvas s draws =
      some (if s.isPaused then .paused else .noDirection, s, draws) := by
  have hl : latch s = s := by
    unfold latch
    rw [hn]
  cases hp : s.isPaused with
  | true => simp [gameLoop_of_paused _ _ _ _ hp]
  | false =>
    have hdir : (latch s).direction = none := by rw [hl, hd]
    rw [gameLoop_of_noDirection _ _ _ _ hp hdir, hl]
    simp

/-- A game started by the start button idles until the first direction
input. -/
theorem gameLoop_idle_witness :
    gameLoop shippedConfig shippedCanvas startedIdleState [] =
      some (.noDirection, startedIdleState, []) :=
  gameLoop_idle shippedConfig shippedCanvas startedIdleState [] rfl rfl

/-! ## Pause and start -/

theorem run_ticks_paused (config : Config) (canvas : Canvas) (s : State)
    (hp : s.isPaused = true) :
    ∀ events : List (Op × List ℚ), (∀ e ∈ events, e.1 = Op.tick) →
      run config canvas events s = some s := by
  intro events
  induction events with
  | nil => intro _; rfl
  | cons ev events ih =>
    intro hall
    obtain ⟨op, draws⟩ := ev
    have hop : op = Op.tick := hall (op, draws) (by simp)
    subst hop
    simp only [run, applyOp, gameLoop_of_paused config canvas s draws hp]
    exact ih (fun e he => hall e (by simp [he]))

/-- C11: `pauseGame` writes only `isPaused` and the timer, so snake, food,
score, speed, direction and the other fields stay; in a paused state a tick
returns the state exactly as it was (a pending direction is not latched) and
uses no draw, and so does any number of ticks in a row. -/
theorem pause_is_frozen (config : Config) (canvas : Canvas) (s : State) (draws : List ℚ) :
    pauseGame s = { s with isPaused := true, gameInterval := none } ∧
    ((pauseGame s).snake = s.snake ∧ (pauseGame s).food = s.food ∧
      (pauseGame s).score = s.score ∧ (pauseGame s).speed = s.speed ∧
      (pauseGame s).direction = s.direction ∧
      (pauseGame s).nextDirection = s.nextDirection ∧
      (pauseGame s).gameStarted = s.gameStarted ∧ (pauseGame s).highScore = s.highScore ∧
      (pauseGame s).storedHighScore = s.storedHighScore) ∧
    (pauseGame s).isPaused = true ∧ (pauseGame s).gameInterval = none ∧
    (s.isPaused = true → gameLoop config canvas s draws = some (.paused, s, draws)) ∧
    (s.isPaused = true → ∀ events : List (Op × List ℚ), (∀ e ∈ events, e.1 = Op.tick) →
      run config canvas events s = some s) :=
  ⟨rfl, ⟨rfl, rfl, rfl, rfl, rfl, rfl, rfl, rfl, rfl⟩, rfl, rfl,
    fun hp => gameLoop_of_paused config canvas s draws hp,
    fun hp => run_ticks_paused config canvas s hp⟩

/-- Three ticks during a pause leave the paused game, its pending `LEFT`
included, as it was. -/
theorem pause_is_frozen_witness :
    run shippedConfig shippedCanvas [(.tick, []), (.tick, []), (.tick, [])]
      pausedPendingState = some pausedPendingState :=
  (pause_is_frozen shippedConfig shippedCanvas pausedPendingState []).2.2.2.2.2 rfl
    [(.tick, []), (.tick, []), (.tick, [])] (by decide)

theorem startGame_of_notStarted (config : Config) (canvas : Canvas) (s : State)
    (draws : List ℚ) (hg : s.gameStarted = false) :
    startGame config canvas s draws =
      (initGame config canvas s draws).map (fun p =>
        ({ p.1 with
            gameStarted := true
            isPaused := false
            gameInterval := some config.initialSpeed }, p.2)) := by
  cases hi : initGame config canvas s draws with
  | none => simp [startGame, hg, hi]
  | some p =>
    obtain ⟨s1, rest⟩ := p
    obtain ⟨f, _, hs1, _⟩ := initGame_some _ _ _ _ _ _ hi
    have hsp : s1.speed = config.initialSpeed := by rw [hs1]; rfl
    simp [startGame, hg, hi, hsp]

/-- C13: `startGame` in a running game returns the state as it is; in a paused
game it clears `isPaused`, schedules the timer at the current speed and leaves
every other field (no reset); in a game that is not started it is `initGame`
followed by `gameStarted = true`, `isPaused = false` and the timer at the
initial speed, and it returns exactly when `initGame` does.  `togglePause` is
`startGame` when the game is not started or is paused, and `pauseGame` when it
is running. -/
theorem startGame_transitions (config : Config) (canvas : Canvas) (s : State)
    (draws : List ℚ) :
    (s.gameStarted = true → s.isPaused = false →
      startGame config canvas s draws = some (s, draws)) ∧
    (s.gameStarted = true → s.isPaused = true →
      startGame config canvas s draws =
        some ({ s with isPaused := false, gameInterval := some s.speed }, draws)) ∧
    (s.gameStarted = false →
      startGame config canvas s draws =
        (initGame config canvas s draws).map (fun p =>
          ({ p.1 with
              gameStarted := true
              isPaused := false
              gameInterval := some config.initialSpeed }, p.2))) ∧
    (s.gameStarted = false → ∀ s1 rest, startGame config canvas s draws = some (s1, rest) →
      s1.gameStarted = true ∧ s1.isPaused = false ∧
      s1.gameInterval = some config.initialSpeed ∧
      s1.snake = [centerCell config canvas] ∧ s1.direction = none ∧
      s1.nextDirection = none ∧ s1.score = 0 ∧ s1.speed = config.initialSpeed) ∧
    (s.gameStarted = false →
      togglePause config canvas s draws = startGame config canvas s draws) ∧
    (s.gameStarted = true → s.isPaused = true →
      togglePause config canvas s draws = startGame config canvas s draws) ∧
    (s.gameStarted = true → s.isPaused = false →
      togglePause config canvas s draws = some (pauseGame s, draws)) := by
  refine ⟨?_, ?_, startGame_of_notStarted config canvas s draws, ?_, ?_, ?_, ?_⟩
  · intro hg hp
    simp [startGame, hg, hp]
  · intro hg hp
    simp [startGame, hg, hp]
  · intro hg s1 rest h
    rcases startGame_inv _ _ _ _ _ _ h with ⟨hg1, _⟩ | ⟨hg1, _⟩ | ⟨_, f, _, h1⟩
    · rw [hg] at hg1; exact absurd hg1 (by simp)
    · rw [hg] at hg1; exact absurd hg1 (by simp)
    · subst h1
      exact ⟨rfl, rfl, rfl, rfl, rfl, rfl, rfl, rfl⟩
  · intro hg
    simp [togglePause, hg]
  · intro hg hp
    simp [togglePause, hg, hp]
  · intro hg hp
    simp [togglePause, hg, hp]

/-- Resuming the paused game keeps the snake, the score, the speed and the
pending `LEFT`. -/
theorem startGame_transitions_witness :
    startGame shippedConfig shippedCanvas pausedPendingState [] =
      some ({ pausedPendingState with isPaused := false, gameInterval := some 140 }, []) :=
  (startGame_transitions shippedConfig shippedCanvas pausedPendingState []).2.1 rfl rfl

/-! ## Geometry -/

/-- What `resizeCanvas` guarantees: a square canvas of at least 20 and less
than 21 boxes a side. -/
theorem resizeCanvas_geometry (innerWidth : Int) (config0 : Config) :
    (resizeCanvas innerWidth config0).2.height = (resizeCanvas innerWidth config0).2.width ∧
    20 * (resizeCanvas innerWidth config0).1.boxSize ≤
      (resizeCanvas innerWidth config0).2.width ∧
    (resizeCanvas innerWidth config0).2.width <
      20 * (resizeCanvas innerWidth config0).1.boxSize + 20 := by
  simp only [resizeCanvas]
  generalize min (innerWidth - 40) 400 = size
  refine ⟨trivial, ?_, ?_⟩
  · have h := Int.floor_le ((size : ℚ) / 20)
    have h2 : (((20 * ⌊(size : ℚ) / 20⌋ : ℤ)) : ℚ) ≤ (size : ℚ) := by
      push_cast
      linarith
    exact_mod_cast h2
  · have h := Int.lt_floor_add_one ((size : ℚ) / 20)
    have h2 : (size : ℚ) < (((20 * ⌊(size : ℚ) / 20⌋ + 20 : ℤ)) : ℚ) := by
      push_cast
      linarith
    exact_mod_cast h2

theorem generateFood_candidate (config : Config) (canvas : Canvas) (s : State) (rx ry : ℚ)
    (rest : List ℚ) :
    generateFood config canvas s (rx :: ry :: rest) =
      if onSnake s.snake (foodCandidate config canvas rx ry)
      then generateFood config canvas s rest
      else some ({ s with food := some (foodCandidate config canvas rx ry) }, rest) :=
  generateFood_cons config canvas s rx ry rest

/-- An attempt that lands on a free cell ends `generateFood`. -/
theorem generateFood_free (config : Config) (canvas : Canvas) (s : State) (rx ry : ℚ)
    (rest : List ℚ) (hfree : foodCandidate config canvas rx ry ∉ s.snake) :
    generateFood config canvas s (rx :: ry :: rest) =
      some ({ s with food := some (foodCandidate config canvas rx ry) }, rest) := by
  rw [generateFood_candidate, (onSnake_false_iff _ _).mpr hfree]
  simp

/-- A first attempt off the start cell ends `initGame`. -/
theorem initGame_free (config : Config) (canvas : Canvas) (s : State) (rx ry : ℚ)
    (rest : List ℚ) (hfree : foodCandidate config canvas rx ry ≠ centerCell config canvas) :
    initGame config canvas s (rx :: ry :: rest) =
      some (resetState config canvas s (foodCandidate config canvas rx ry), rest) := by
  have hmem : foodCandidate config canvas rx ry ∉
      ({ s with snake := [centerCell config canvas] } : State).snake := by
    simpa using hfree
  have hg := generateFood_free config canvas { s with snake := [centerCell config canvas] }
    rx ry rest hmem
  unfold initGame
  simp only [centerCell] at hg ⊢
  rw [hg]
  rfl

theorem foodCandidate_zero (config : Config) (canvas : Canvas) :
    foodCandidate config canvas 0 0 = { x := 0, y := 0 } := by
  simp [foodCandidate]

/-- The column of the start cell, for a positive `boxSize`: half the number of
whole columns, rounded down. -/
theorem centerCell_index (config : Config) (canvas : Canvas) (hb : 0 < config.boxSize) :
    (centerCell config canvas).x = canvas.width / config.boxSize / 2 * config.boxSize ∧
    (centerCell config canvas).y = canvas.height / config.boxSize / 2 * config.boxSize := by
  have key : ∀ w : Int, Int.floor ((w : ℚ) / (config.boxSize : ℚ) / 2) =
      w / config.boxSize / 2 := by
    intro w
    have hbq : (0 : ℚ) < (config.boxSize : ℚ) := by exact_mod_cast hb
    have h1 := Int.emod_add_ediv w config.boxSize
    have h2 := Int.emod_nonneg w (ne_of_gt hb)
    have h3 := Int.emod_lt_of_pos w hb
    have h4 := Int.emod_add_ediv (w / config.boxSize) 2
    have h5 := Int.emod_nonneg (w / config.boxSize) (by decide : (2 : ℤ) ≠ 0)
    have h6 := Int.emod_lt_of_pos (w / config.boxSize) (by decide : (0 : ℤ) < 2)
    rw [Int.floor_eq_iff, div_div, le_div_iff₀ (by positivity), div_lt_iff₀ (by positivity)]
    constructor
    · have : w / config.boxSize / 2 * (config.boxSize * 2) ≤ w := by nlinarith
      exact_mod_cast this
    · have : w < (w / config.boxSize / 2 + 1) * (config.boxSize * 2) := by nlinarith
      exact_mod_cast this
  simp only [centerCell, key]
  exact ⟨trivial, trivial⟩

theorem isGeometry_bounds (config : Config) (canvas : Canvas)
    (hgeo : IsGeometry config canvas) :
    canvas.height = canvas.width ∧ 20 * config.boxSize ≤ canvas.width ∧
      canvas.width < 20 * config.boxSize + 20 := by
  obtain ⟨innerWidth, config0, h⟩ := hgeo
  have hg := resizeCanvas_geometry innerWidth config0
  rw [h] at hg
  exact hg

/-- A wide window gives the 400 x 400 canvas with boxes of 20. -/
theorem isGeometry_shipped : IsGeometry shippedConfig shippedCanvas :=
  ⟨1000, shippedConfig, by norm_num [resizeCanvas, shippedConfig, shippedCanvas]⟩

/-- With more than two columns and rows the start cell has a cell on each of
its four sides inside the canvas. -/
theorem centerCell_bounds (config : Config) (canvas : Canvas) (hb : 0 < config.boxSize)
    (hw : 2 * config.boxSize < canvas.width) (hh : 2 * config.boxSize < canvas.height) :
    config.boxSize ≤ (centerCell config canvas).x ∧
    (centerCell config canvas).x + config.boxSize < canvas.width ∧
    config.boxSize ≤ (centerCell config canvas).y ∧
    (centerCell config canvas).y + config.boxSize < canvas.height := by
  have hbq : (0 : ℚ) < (config.boxSize : ℚ) := by exact_mod_cast hb
  have key : ∀ w : Int, 2 * config.boxSize < w →
      config.boxSize ≤ Int.floor ((w : ℚ) / (config.boxSize : ℚ) / 2) * config.boxSize ∧
      Int.floor ((w : ℚ) / (config.boxSize : ℚ) / 2) * config.boxSize + config.boxSize < w := by
    intro w hw
    have hwq : (2 : ℚ) * (config.boxSize : ℚ) < (w : ℚ) := by exact_mod_cast hw
    have h1 : (1 : ℤ) ≤ Int.floor ((w : ℚ) / (config.boxSize : ℚ) / 2) := by
      rw [Int.le_floor, div_div, le_div_iff₀ (by positivity)]
      push_cast
      linarith
    have h2 := Int.floor_le ((w : ℚ) / (config.boxSize : ℚ) / 2)
    rw [div_div, le_div_iff₀ (by positivity)] at h2
    constructor
    · nlinarith
    · have h3 : ((Int.floor ((w : ℚ) / (config.boxSize : ℚ) / 2) * config.boxSize +
          config.boxSize : ℤ) : ℚ) < (w : ℚ) := by
        push_cast
        rw [div_div]
        nlinarith
      exact_mod_cast h3
  obtain ⟨hx1, hx2⟩ := key canvas.width hw
  obtain ⟨hy1, hy2⟩ := key canvas.height hh
  exact ⟨hx1, hx2, hy1, hy2⟩

/-! ## Reset -/

/-- C12: whatever the geometry and the prior state, a returning `initGame`
leaves a snake of exactly one cell, at pixel
`(floor(width / boxSize / 2) * boxSize, floor(height / boxSize / 2) * boxSize)`,
with `direction` and `nextDirection` cleared, score 0 and speed
`initialSpeed`; for a positive `boxSize` the column and row of that cell are
half the number of whole columns and rows, rounded down; `initGame` returns as
soon as an attempt of `generateFood` is off the start cell, which the draws 0, 0
are in every geometry of `resizeCanvas` with positive `boxSize`; on the 20 x 20
grid the start cell is (10,10). -/
theorem initGame_centre (config : Config) (canvas : Canvas) (s : State) (draws : List ℚ) :
    (∀ s1 rest, initGame config canvas s draws = some (s1, rest) →
      s1.snake =
        [{ x := Int.floor ((canvas.width : ℚ) / (config.boxSize : ℚ) / 2) * config.boxSize
           y := Int.floor ((canvas.height : ℚ) / (config.boxSize : ℚ) / 2) * config.boxSize }] ∧
      s1.direction = none ∧ s1.nextDirection = none ∧ s1.score = 0 ∧
      s1.speed = config.initialSpeed) ∧
    (0 < config.boxSize →
      (centerCell config canvas).x = canvas.width / config.boxSize / 2 * config.boxSize ∧
      (centerCell config canvas).y = canvas.height / config.boxSize / 2 * config.boxSize) ∧
    (∀ rx ry rest, foodCandidate config canvas rx ry ≠ centerCell config canvas →
      initGame config canvas s (rx :: ry :: rest) =
        some (resetState config canvas s (foodCandidate config canvas rx ry), rest)) ∧
    (0 < config.boxSize → IsGeometry config canvas →
      ∀ rest, initGame config canvas s (0 :: 0 :: rest) =
        some (resetState config canvas s { x := 0, y := 0 }, rest)) ∧
    centerCell shippedConfig shippedCanvas = { x := 10 * 20, y := 10 * 20 } := by
  refine ⟨?_, centerCell_index config canvas, initGame_free config canvas s, ?_, ?_⟩
  · intro s1 rest h
    obtain ⟨f, _, h1, _⟩ := initGame_some _ _ _ _ _ _ h
    subst h1
    exact ⟨rfl, rfl, rfl, rfl, rfl⟩
  · intro hb hgeo rest
    obtain ⟨hsq, h20, _⟩ := isGeometry_bounds config canvas hgeo
    have hw : 2 * config.boxSize < canvas.width := by omega
    have hc := centerCell_bounds config canvas hb hw (by omega)
    have hne : foodCandidate config canvas 0 0 ≠ centerCell config canvas := by
      rw [foodCandidate_zero]
      intro he
      have hx : (0 : ℤ) = (centerCell config canvas).x := by rw [← he]
      omega
    have h := initGame_free config canvas s 0 0 rest hne
    rw [foodCandidate_zero] at h
    exact h
  · norm_num [centerCell, shippedConfig, shippedCanvas]

/-- On the 400 x 400 canvas with boxes of 20, `initGame` on the draws 0, 0
returns with the snake on the cell (10,10) and the food on (0,0). -/
theorem initGame_centre_witness :
    initGame shippedConfig shippedCanvas (initialState shippedConfig none) [0, 0] =
      some (resetState shippedConfig shippedCanvas (initialState shippedConfig none)
        { x := 0, y := 0 }, []) :=
  (initGame_centre shippedConfig shippedCanvas (initialState shippedConfig none) []).2.2.2.1
    (by decide) isGeometry_shipped []

/-- A tick that runs with the new head inside the canvas and off the snake
puts that head in front and keeps the latched direction. -/
theorem gameLoop_of_free (config : Config) (canvas : Canvas) (s : State) (draws : List ℚ)
    (d : Direction) (hd : Cell) (tl : List Cell)
    (hp : s.isPaused = false) (hdir : (latch s).direction = some d) (hs : s.snake = hd :: tl)
    (hc : collides canvas s.snake (moveHead config d hd) = false)
    (r : TickResult) (s1 : State) (rest : List ℚ)
    (h : gameLoop config canvas s draws = some (r, s1, rest)) :
    (r = .moved ∨ r = .ateFood) ∧ s1.snake.head? = some (moveHead config d hd) ∧
      s1.direction = some d ∧ s1.nextDirection = none := by
  have hr : r ≠ .crashed := by
    intro hcr
    subst hcr
    have := gameLoop_of_collides_inv config canvas s draws d hd tl hdir hs s1 rest h
    rw [hc] at this
    exact absurd this (by simp)
  have hdn : s1.direction = some d ∧ s1.nextDirection = none := by
    rcases gameLoop_direction _ _ _ _ _ _ _ h with ⟨_, _⟩ | ⟨h1, h2⟩
    · rcases gameLoop_inv _ _ _ _ _ _ _ h with
        ⟨hp1, _⟩ | ⟨_, _, _, h1, _⟩ | ⟨_, _, _, _, _, h1, _⟩ |
        ⟨_, _, _, _, _, _, _, _, h1, _⟩ |
        ⟨_, _, _, _, _, _, _, _, _, h1, _⟩ | ⟨_, _, _, _, _, _, _, _, _, _, h1, _⟩
      · rw [hp] at hp1; exact absurd hp1 (by simp)
      · subst h1; exact ⟨hdir, latch_nextDirection s⟩
      · subst h1; exact ⟨hdir, latch_nextDirection s⟩
      · subst h1
        rw [(gameOver_fields _).2.2.2.2.1, (gameOver_fields _).2.2.2.2.2.1]
        exact ⟨hdir, latch_nextDirection s⟩
      · subst h1; exact ⟨hdir, latch_nextDirection s⟩
      · subst h1
        unfold eaten
        split <;> exact ⟨hdir, latch_nextDirection s⟩
    · exact ⟨by rw [h1, hdir], h2⟩
  rcases tick_outcomes config canvas s draws d hd tl hp hdir hs r s1 rest h hr with
    ⟨_, hm, hsn, _⟩ | ⟨_, ha, hsn, _⟩
  · exact ⟨Or.inl hm, by rw [hsn]; rfl, hdn⟩
  · exact ⟨Or.inr ha, by rw [hsn]; rfl, hdn⟩

/-- From the start cell a move by one box in any direction stays inside the
canvas and off the one-cell snake, in a geometry with more than two columns
and rows. -/
theorem collides_from_center (config : Config) (canvas : Canvas) (d : Direction)
    (hb : 0 < config.boxSize) (hw : 2 * config.boxSize < canvas.width)
    (hh : 2 * config.boxSize < canvas.height) :
    collides canvas [centerCell config canvas] (moveHead config d (centerCell config canvas)) =
      false := by
  obtain ⟨hx1, hx2, hy1, hy2⟩ := centerCell_bounds config canvas hb hw hh
  have hnot : ¬ (collides canvas [centerCell config canvas]
      (moveHead config d (centerCell config canvas)) = true) := by
    rw [collides_iff]
    cases d <;> simp only [moveHead, List.mem_singleton] <;>
      rintro (h | h | h | h | h) <;> first
        | omega
        | (have hx := congrArg Cell.x h; have hy := congrArg Cell.y h
           simp only at hx hy; omega)
  simpa using hnot

/-! ## Starting by a direction input -/

/-- C14: in a game that is not started, `setDirection(d)` is `initGame`
followed by `gameStarted = true`, `isPaused = false`, the timer at the initial
speed and `nextDirection = d`, and it returns exactly when `initGame` does;
afterwards the snake is the start cell alone and `d` is pending; in every
geometry of `resizeCanvas` with positive `boxSize` the next tick puts the start
cell shifted by one box in direction `d` at the head of the snake, with
direction `d`, and it returns whenever the food is not on that cell. -/
theorem setDirection_starts (config : Config) (canvas : Canvas) (s : State)
    (draws : List ℚ) (d : Direction) (hg : s.gameStarted = false) :
    (setDirection config canvas d s draws =
      (initGame config canvas s draws).map (fun p =>
        ({ p.1 with
            nextDirection := some d
            gameStarted := true
            isPaused := false
            gameInterval := some config.initialSpeed }, p.2))) ∧
    (∀ s1 rest, setDirection config canvas d s draws = some (s1, rest) →
      (s1.gameStarted = true ∧ s1.isPaused = false ∧
        s1.snake = [centerCell config canvas] ∧ s1.nextDirection = some d ∧
        s1.direction = none ∧ s1.score = 0 ∧ s1.speed = config.initialSpeed ∧
        s1.gameInterval = some config.initialSpeed) ∧
      (0 < config.boxSize → IsGeometry config canvas →
        (∀ draws2 r s2 rest2, gameLoop config canvas s1 draws2 = some (r, s2, rest2) →
          (r = .moved ∨ r = .ateFood) ∧
          s2.snake.head? = some (moveHead config d (centerCell config canvas)) ∧
          s2.direction = some d ∧ s2.nextDirection = none) ∧
        (∀ draws2, s1.food ≠ some (moveHead config d (centerCell config canvas)) →
          ∃ s2, gameLoop config canvas s1 draws2 = some (.moved, s2, draws2) ∧
            s2.snake = [moveHead config d (centerCell config canvas)]))) := by
  constructor
  · cases hi : initGame config canvas s draws with
    | none => simp [setDirection, hg, startGame_of_notStarted config canvas s draws hg, hi]
    | some p =>
      obtain ⟨s1, rest⟩ := p
      obtain ⟨f, _, hs1, _⟩ := initGame_some _ _ _ _ _ _ hi
      have hdir : s1.direction = none := by rw [hs1]; rfl
      have hnr : isReverse s1.direction d = false := by
        rw [hdir]; cases d <;> rfl
      simp [setDirection, hg, startGame_of_notStarted config canvas s draws hg, hi, hnr]
  · intro s1 rest h
    rcases setDirection_inv _ _ _ _ _ _ _ h with ⟨hg1, _⟩ | ⟨hg1, _⟩ | ⟨_, f, _, h1⟩
    · rw [hg] at hg1; exact absurd hg1 (by simp)
    · rw [hg] at hg1; exact absurd hg1 (by simp)
    · have hp : s1.isPaused = false := by rw [h1]
      have hdir : (latch s1).direction = some d := by rw [h1]; rfl
      have hs : s1.snake = [centerCell config canvas] := by rw [h1]; rfl
      refine ⟨⟨by rw [h1], hp, hs, by rw [h1], by rw [h1]; rfl, by rw [h1]; rfl,
        by rw [h1]; rfl, by rw [h1]⟩, ?_⟩
      intro hb hgeo
      obtain ⟨hsq, h20, _⟩ := isGeometry_bounds config canvas hgeo
      have hc : collides canvas s1.snake (moveHead config d (centerCell config canvas)) =
          false := by
        rw [hs]
        exact collides_from_center config canvas d hb (by omega) (by omega)
      refine ⟨?_, ?_⟩
      · intro draws2 r s2 rest2 h2
        exact gameLoop_of_free config canvas s1 draws2 d (centerCell config canvas) []
          hp hdir hs hc r s2 rest2 h2
      · intro draws2 hf
        exact ⟨_, gameLoop_of_move config canvas s1 draws2 d (centerCell config canvas) []
          hp hdir hs hc hf, rfl⟩

/-- An `UP` input on the freshly loaded page: the game runs, the snake is on
the start cell and `UP` is pending. -/
theorem setDirection_starts_witness :
    startedUpState.gameStarted = true ∧ startedUpState.isPaused = false ∧
      startedUpState.snake = [centerCell shippedConfig shippedCanvas] ∧
      startedUpState.nextDirection = some .UP ∧ startedUpState.direction = none ∧
      startedUpState.score = 0 ∧ startedUpState.speed = shippedConfig.initialSpeed ∧
      startedUpState.gameInterval = some shippedConfig.initialSpeed :=
  ((setDirection_starts shippedConfig shippedCanvas (initialState shippedConfig none)
    [0, 0] .UP rfl).2 startedUpState [] applyOp_initial_up).1

/-! ## Several direction inputs before a tick -/

theorem setDirections_started (config : Config) (canvas : Canvas) (draws : List ℚ) :
    ∀ (ds : List Direction) (s : State), s.gameStarted = true →
      setDirections config canvas ds s draws =
        some ({ s with
                nextDirection :=
                  match lastAccepted s.direction ds with
                  | some e => some e
                  | none => s.nextDirection }, draws) := by
  intro ds
  induction ds with
  | nil => intro s _; rfl
  | cons d ds ih =>
    intro s hg
    cases hr : isReverse s.direction d with
    | true =>
      have h1 : setDirection config canvas d s draws = some (s, draws) := by
        simp [setDirection, hg, hr]
      simp only [setDirections, h1, ih s hg, lastAccepted, hr]
      cases lastAccepted s.direction ds <;> rfl
    | false =>
      have h1 : setDirection config canvas d s draws =
          some ({ s with nextDirection := some d }, draws) := by
        simp [setDirection, hg, hr]
      simp only [setDirections, h1, ih { s with nextDirection := some d } hg, lastAccepted, hr]
      cases lastAccepted s.direction ds <;> rfl

/-- C15: in a running game a sequence of `setDirection` calls without a tick
in between only writes `nextDirection`, to the last call that passes the
reversal test; the direction that the next tick latches is that one, or, when
no call passes, the one that the tick would have latched anyway, which is the
previous direction when nothing was pending; the tick that returns has that
direction, has cleared `nextDirection`, and computes a new head with it. -/
theorem setDirections_latched (config : Config) (canvas : Canvas) (s : State)
    (draws : List ℚ) (ds : List Direction)
    (hg : s.gameStarted = true) (hp : s.isPaused = false) :
    ∃ s1, setDirections config canvas ds s draws = some (s1, draws) ∧
      s1 = { s with
              nextDirection :=
                match lastAccepted s.direction ds with
                | some e => some e
                | none => s.nextDirection } ∧
      (latch s1).direction =
        (match lastAccepted s.direction ds with
          | some e => some e
          | none => (latch s).direction) ∧
      (s.nextDirection = none → lastAccepted s.direction ds = none →
        (latch s1).direction = s.direction) ∧
      (∀ draws2 r s2 rest2, gameLoop config canvas s1 draws2 = some (r, s2, rest2) →
        s2.direction = (latch s1).direction ∧ s2.nextDirection = none ∧
        ∀ d hd tl, (latch s1).direction = some d → s.snake = hd :: tl → r ≠ .crashed →
          s2.snake.head? = some (moveHead config d hd)) := by
  refine ⟨_, setDirections_started config canvas draws ds s hg, rfl, ?_, ?_, ?_⟩
  · cases hl : lastAccepted s.direction ds with
    | some e => rfl
    | none =>
      simp only [latch]
  · intro hn hl
    simp only [hl, latch, hn]
  · intro draws2 r s2 rest2 h
    have hp1 : ({ s with
        nextDirection :=
          match lastAccepted s.direction ds with
          | some e => some e
          | none => s.nextDirection } : State).isPaused = false := hp
    refine ⟨?_, ?_, ?_⟩
    · rcases gameLoop_inv _ _ _ _ _ _ _ h with
        ⟨hp2, _⟩ | ⟨_, _, _, h1, _⟩ | ⟨_, _, _, _, _, h1, _⟩ |
        ⟨_, _, _, _, _, _, _, _, h1, _⟩ |
        ⟨_, _, _, _, _, _, _, _, _, h1, _⟩ | ⟨_, _, _, _, _, _, _, _, _, _, h1, _⟩
      · rw [hp1] at hp2; exact absurd hp2 (by simp)
      · rw [h1]
      · rw [h1]
      · rw [h1, (gameOver_fields _).2.2.2.2.1]
      · rw [h1]
      · rw [h1]
        unfold eaten
        split <;> rfl
    · rcases gameLoop_direction _ _ _ _ _ _ _ h with ⟨_, _⟩ | ⟨_, h2⟩
      · rcases gameLoop_inv _ _ _ _ _ _ _ h with
          ⟨hp2, _⟩ | ⟨_, _, _, h1, _⟩ | ⟨_, _, _, _, _, h1, _⟩ |
          ⟨_, _, _, _, _, _, _, _, h1, _⟩ |
          ⟨_, _, _, _, _, _, _, _, _, h1, _⟩ | ⟨_, _, _, _, _, _, _, _, _, _, h1, _⟩
        · rw [hp1] at hp2; exact absurd hp2 (by simp)
        · rw [h1]; exact latch_nextDirection _
        · rw [h1]; exact latch_nextDirection _
        · rw [h1, (gameOver_fields _).2.2.2.2.2.1]; exact latch_nextDirection _
        · rw [h1]; exact latch_nextDirection _
        · rw [h1]
          unfold eaten
          split <;> exact latch_nextDirection _
      · exact h2
    · intro d hd tl hdir hs hr
      rcases tick_outcomes config canvas _ draws2 d hd tl hp1 hdir hs r s2 rest2 h hr with
        ⟨_, _, hsn, _⟩ | ⟨_, _, hsn, _⟩
      · rw [hsn]; rfl
      · rw [hsn]; rfl

/-- A snake moving `UP` receives `LEFT`, `DOWN`, `RIGHT`, `DOWN` before the
next tick: `DOWN` is rejected twice and `RIGHT`, the last accepted input, is
the only one left pending. -/
theorem setDirections_latched_witness :
    ∃ s1, setDirections shippedConfig shippedCanvas [.LEFT, .DOWN, .RIGHT, .DOWN]
        aboutToEatState [] = some (s1, []) ∧
      s1 = { aboutToEatState with nextDirection := some .RIGHT } ∧
      (latch s1).direction = some .RIGHT := by
  obtain ⟨s1, h1, h2, h3, -⟩ := setDirections_latched shippedConfig shippedCanvas
    aboutToEatState [] [.LEFT, .DOWN, .RIGHT, .DOWN] rfl rfl
  exact ⟨s1, h1, h2, h3⟩

/-! ## Speed as a function of the score -/

theorem speedOfScore_step (config : Config) (canvas : Canvas)
    (hi : config.initialSpeed = 150) (hs : config.speedIncrease = 5)
    (hm : config.maxSpeed = 50) (op : Op) (s : State) (draws : List ℚ)
    (s1 : State) (rest : List ℚ)
    (hP : s.speed = max 50 (150 - 5 * (s.score : ℤ)))
    (h : applyOp config canvas op s draws = some (s1, rest)) :
    s1.speed = max 50 (150 - 5 * (s1.score : ℤ)) := by
  rcases applyOp_cases _ _ _ _ _ _ _ h with ⟨_, _, hsame, _⟩ | ⟨_, hfresh, _⟩ | ⟨_, r, hg⟩
  · rw [hsame.2.2.2.2.1, hsame.2.2.2.1]; exact hP
  · obtain ⟨f, _, _, _, _, hsc, hsp, _⟩ := hfresh
    rw [hsp, hsc, hi]
    simp
  · obtain ⟨hate, hother⟩ := gameLoop_speed _ _ _ _ _ _ _ hg
    obtain ⟨hate2, hother2⟩ := gameLoop_score _ _ _ _ _ _ _ hg
    by_cases hr : r = .ateFood
    · rw [hate hr, hate2 hr, hs, hm]
      push_cast
      split
      · rename_i hgt
        rw [max_def] at hP ⊢
        split at hP <;> split <;> omega
      · rename_i hgt
        rw [max_def] at hP ⊢
        split at hP <;> split <;> omega
    · rw [hother hr, hother2 hr]; exact hP

/-- C19: with the shipped speeds `initialSpeed = 150`, `speedIncrease = 5`,
`maxSpeed = 50`, whatever `boxSize` and the canvas are, in every state reached
after a reset the speed is `max(50, 150 - 5 * score)`; so it lies between 50
and 150 and is 50 exactly from score 20 on. -/
theorem speed_of_score (config : Config) (canvas : Canvas)
    (hi : config.initialSpeed = 150) (hs : config.speedIncrease = 5)
    (hm : config.maxSpeed = 50) (op : Op) (s0 : State) (draws0 : List ℚ)
    (s1 : State) (rest0 : List ℚ) (s : State)
    (h0 : applyOp config canvas op s0 draws0 = some (s1, rest0))
    (hreset : callsInitGame op s0 = true)
    (hr : Reachable config canvas s1 s) :
    s.speed = max 50 (150 - 5 * (s.score : ℤ)) ∧ 50 ≤ s.speed ∧ s.speed ≤ 150 ∧
      (s.speed = 50 ↔ 20 ≤ s.score) := by
  have hinv : s.speed = max 50 (150 - 5 * (s.score : ℤ)) := by
    refine reachable_induction config canvas
      (fun s => s.speed = max 50 (150 - 5 * (s.score : ℤ))) ?_ _ s ?_ hr
    · intro op s draws s1 rest hP ha
      exact speedOfScore_step config canvas hi hs hm op s draws s1 rest hP ha
    · rcases applyOp_cases _ _ _ _ _ _ _ h0 with ⟨hc, _⟩ | ⟨_, hfresh, _⟩ | ⟨ht, _⟩
      · rw [hreset] at hc
        exact absurd hc (by simp)
      · obtain ⟨f, _, _, _, _, hsc, hsp, _⟩ := hfresh
        rw [hsp, hsc, hi]
        simp
      · subst ht
        simp [callsInitGame] at hreset
  rw [max_def] at hinv
  split at hinv
  · exact ⟨by rw [hinv, max_def]; simp [*], by omega, by omega, by omega⟩
  · exact ⟨by rw [hinv, max_def]; simp [*], by omega, by omega, by omega⟩

/-- The shipped game after its first eating tick: score 1, speed 145. -/
theorem speed_of_score_witness :
    (ateRightState 145).speed = max 50 (150 - 5 * ((ateRightState 145).score : ℤ)) :=
  (speed_of_score shippedConfig shippedCanvas rfl rfl rfl (.setDirection .RIGHT)
    (initialState shippedConfig none)
    [11 / 19, 10 / 19] (startedRightState 150) [] (ateRightState 145)
    applyOp_initial_right rfl
    (Reachable.step _ _ _ _ _ Reachable.refl applyOp_tick_right)).1

/-! ## The tick timer -/

theorem reachableBy_induction (config : Config) (canvas : Canvas)
    (ok : Op → State → List ℚ → Prop) (P : State → Prop)
    (hstep : ∀ op s draws s1 rest, P s → ok op s draws →
      applyOp config canvas op s draws = some (s1, rest) → P s1)
    (s0 s : State) (h0 : P s0) (hr : ReachableBy config canvas ok s0 s) : P s := by
  induction hr with
  | refl => exact h0
  | step op draws rest s s1 _ hok ha ih => exact hstep op s draws s1 rest ih hok ha

theorem reachable_of_reachableBy (config : Config) (canvas : Canvas)
    (ok : Op → State → List ℚ → Prop) (s0 s : State)
    (hr : ReachableBy config canvas ok s0 s) : Reachable config canvas s0 s := by
  induction hr with
  | refl => exact Reachable.refl
  | step op draws rest s s1 _ _ ha ih => exact Reachable.step op draws rest s s1 ih ha

theorem timerInv_startGame (config : Config) (canvas : Canvas) (s : State) (draws : List ℚ)
    (s1 : State) (rest : List ℚ) (hP : TimerInv s)
    (h : startGame config canvas s draws = some (s1, rest)) : TimerInv s1 := by
  rcases startGame_inv _ _ _ _ _ _ h with ⟨_, _, h1, _⟩ | ⟨hg, _, h1, _⟩ | ⟨_, f, _, h1⟩
  · rw [h1]; exact hP
  · rw [h1]; simp [TimerInv, hg]
  · rw [h1]; simp [TimerInv, resetState]

theorem timerInv_gameLoop (config : Config) (canvas : Canvas) (s : State) (draws : List ℚ)
    (r : TickResult) (s1 : State) (rest : List ℚ) (hP : TimerInv s)
    (hfire : s.gameInterval ≠ none)
    (h : gameLoop config canvas s draws = some (r, s1, rest)) : TimerInv s1 := by
  have hl := latch_fields s
  have hrun : s.gameStarted = true ∧ s.isPaused = false := by
    unfold TimerInv at hP
    cases hg : s.gameStarted <;> cases hp : s.isPaused <;> simp [hg, hp] at hP <;>
      first | exact ⟨rfl, rfl⟩ | exact absurd hP hfire
  have hPl : TimerInv (latch s) := by
    unfold TimerInv at hP ⊢
    rw [hl.2.2.2.2.1, hl.2.2.2.2.2.1, hl.2.2.2.2.2.2, hl.2.1]
    exact hP
  rcases gameLoop_inv _ _ _ _ _ _ _ h with
    ⟨_, _, h1, _⟩ | ⟨_, _, _, h1, _⟩ | ⟨_, _, _, _, _, h1, _⟩ |
    ⟨_, _, _, _, _, _, _, _, h1, _⟩ |
    ⟨_, _, _, _, _, _, _, _, _, h1, _⟩ | ⟨_, _, _, _, _, _, _, _, _, _, h1, _⟩
  · rw [h1]; exact hP
  · rw [h1]; exact hPl
  · rw [h1]; exact hPl
  · rw [h1]
    have hg := gameOver_fields (latch s)
    unfold TimerInv
    rw [hg.2.2.2.2.2.2.2.2, hg.2.2.2.2.2.2.2.1]
    simp
  · rw [h1]; exact hPl
  · rw [h1]
    unfold TimerInv at hPl ⊢
    unfold eaten
    split
    · simp [hl.2.2.2.2.1, hl.2.2.2.2.2.1, hrun.1, hrun.2]
    · exact hPl

theorem timerInv_step (config : Config) (canvas : Canvas) (op : Op) (s : State)
    (draws : List ℚ) (s1 : State) (rest : List ℚ) (hP : TimerInv s)
    (hok : timerFires op s draws)
    (h : applyOp config canvas op s draws = some (s1, rest)) : TimerInv s1 := by
  cases op with
  | setDirection d =>
    rcases setDirection_inv _ _ _ _ _ _ _ h with ⟨_, _, h1, _⟩ | ⟨_, _, h1, _⟩ | ⟨_, f, _, h1⟩
    · rw [h1]; exact hP
    · rw [h1]; exact hP
    · rw [h1]; simp [TimerInv, resetState]
  | startGame => exact timerInv_startGame config canvas s draws s1 rest hP h
  | pauseGame =>
    simp only [applyOp, Option.some.injEq, Prod.mk.injEq] at h
    rw [← h.1]
    simp [TimerInv, pauseGame]
  | togglePause =>
    simp only [applyOp, togglePause] at h
    split at h
    · exact timerInv_startGame config canvas s draws s1 rest hP h
    · split at h
      · exact timerInv_startGame config canvas s draws s1 rest hP h
      · simp only [Option.some.injEq, Prod.mk.injEq] at h
        rw [← h.1]
        simp [TimerInv, pauseGame]
  | restartGame =>
    obtain ⟨f, _, h1⟩ := restartGame_inv _ _ _ _ _ _ h
    rw [h1]
    simp [TimerInv, resetState]
  | tick =>
    simp only [applyOp] at h
    cases hg : gameLoop config canvas s draws with
    | none => simp [hg] at h
    | some p =>
      obtain ⟨r, s2, rest2⟩ := p
      simp only [hg, Option.some.injEq, Prod.mk.injEq] at h
      rw [← h.1]
      exact timerInv_gameLoop config canvas s draws r s2 rest2 hP (hok rfl) hg

/-- C18: with the timer as the field `gameInterval`, in every state reached
from the initial state by events in which a tick arrives only while a timer is
scheduled, a timer is scheduled exactly when the game is started and not
paused, and its interval is the current speed; an eating tick that changes the
speed leaves the timer scheduled at the new speed; `pauseGame`, `gameOver` and
`restartGame` leave no timer. -/
theorem timer_iff_running (config : Config) (canvas : Canvas) (stored : Option Nat)
    (s : State)
    (hr : ReachableBy config canvas timerFires (initialState config stored) s) :
    (s.gameInterval ≠ none ↔ (s.gameStarted = true ∧ s.isPaused = false)) ∧
    (∀ t, s.gameInterval = some t → t = s.speed) ∧
    (∀ draws s1 rest, gameLoop config canvas s draws = some (.ateFood, s1, rest) →
      s1.speed ≠ s.speed → s1.gameInterval = some s1.speed) ∧
    (pauseGame s).gameInterval = none ∧ (gameOver s).gameInterval = none ∧
    (∀ draws s1 rest, restartGame config canvas s draws = some (s1, rest) →
      s1.gameInterval = none) := by
  have hinv : TimerInv s := by
    refine reachableBy_induction config canvas timerFires TimerInv ?_ _ s ?_ hr
    · intro op s draws s1 rest hP hok ha
      exact timerInv_step config canvas op s draws s1 rest hP hok ha
    · simp [TimerInv, initialState]
  unfold TimerInv at hinv
  refine ⟨?_, ?_, ?_, rfl, (gameOver_fields s).2.2.2.2.2.2.2.2, ?_⟩
  · cases hg : s.gameStarted <;> cases hp : s.isPaused <;> simp [hg, hp] at hinv <;>
      simp [hinv]
  · intro t ht
    cases hg : s.gameStarted <;> cases hp : s.isPaused <;> simp [hg, hp, ht] at hinv
    exact hinv
  · intro draws s1 rest h hne
    rcases gameLoop_inv _ _ _ _ _ _ _ h with
      ⟨_, hr1, _⟩ | ⟨_, _, hr1, _⟩ | ⟨_, _, _, _, hr1, _⟩ | ⟨_, _, _, _, _, _, _, hr1, _⟩ |
      ⟨_, _, _, _, _, _, _, _, hr1, _⟩ | ⟨_, _, _, _, _, _, _, _, _, _, h1, _⟩
    · exact absurd hr1 (by simp)
    · exact absurd hr1 (by simp)
    · exact absurd hr1 (by simp)
    · exact absurd hr1 (by simp)
    · exact absurd hr1 (by simp)
    · rw [h1] at hne ⊢
      unfold eaten at hne ⊢
      split
      · rfl
      · rename_i hgt
        rw [if_neg hgt] at hne
        exact absurd (latch_fields s).2.1 hne
  · intro draws s1 rest h
    obtain ⟨f, _, h1⟩ := restartGame_inv _ _ _ _ _ _ h
    rw [h1]
    rfl

/-- The shipped game after its first eating tick: started, not paused, and
the timer rescheduled at the new speed 145. -/
theorem timer_iff_running_witness :
    ((ateRightState 145).gameInterval ≠ none ↔
      ((ateRightState 145).gameStarted = true ∧ (ateRightState 145).isPaused = false)) ∧
    (145 : ℤ) = (ateRightState 145).speed :=
  have h := timer_iff_running shippedConfig shippedCanvas none (ateRightState 145)
    (ReachableBy.step _ _ _ _ _
      (ReachableBy.step _ _ _ _ _ ReachableBy.refl (fun h => by cases h)
        applyOp_initial_right)
      (fun _ => by decide) applyOp_tick_right)
  ⟨h.1, h.2.1 145 rfl⟩

/-! ## Where the food can be -/

/-- The food that a returning `generateFood` has placed is the candidate of
two of its draws. -/
theorem generateFood_some_candidate (config : Config) (canvas : Canvas) (s : State) :
    ∀ (draws : List ℚ) (s1 : State) (rest : List ℚ),
      generateFood config canvas s draws = some (s1, rest) →
      ∃ rx ry, rx ∈ draws ∧ ry ∈ draws ∧
        s1.food = some (foodCandidate config canvas rx ry) := by
  intro draws
  generalize hn : draws.length = n
  induction n using Nat.strong_induction_on generalizing draws with
  | _ n ih =>
    intro s1 rest1 h
    match draws, hn, h with
    | [], _, h => simp [generateFood] at h
    | [_], _, h => simp [generateFood] at h
    | rx :: ry :: rest, hn, h =>
      rw [generateFood_candidate] at h
      split at h
      · have hlt : rest.length < n := by
          simp only [List.length_cons] at hn
          omega
        obtain ⟨qx, qy, hx, hy, hf⟩ := ih rest.length hlt rest rfl s1 rest1 h
        exact ⟨qx, qy, by simp [hx], by simp [hy], hf⟩
      · simp only [Option.some.injEq, Prod.mk.injEq] at h
        exact ⟨rx, ry, by simp, by simp, by rw [← h.1]⟩

/-- The cell index of one axis of a candidate: for a draw in `[0,1)` and more
than one column it is at least 0 and less than `width / boxSize - 1`, so the
cell and the one after it start inside the canvas. -/
theorem candidate_index (config : Config) (canvas : Canvas) (r : ℚ)
    (hb : 0 < config.boxSize) (hw : config.boxSize < canvas.width)
    (hr0 : 0 ≤ r) (hr1 : r < 1) :
    0 ≤ Int.floor (r * ((canvas.width : ℚ) / (config.boxSize : ℚ) - 1)) ∧
    ((Int.floor (r * ((canvas.width : ℚ) / (config.boxSize : ℚ) - 1)) : ℤ) : ℚ) <
      (canvas.width : ℚ) / (config.boxSize : ℚ) - 1 ∧
    0 ≤ Int.floor (r * ((canvas.width : ℚ) / (config.boxSize : ℚ) - 1)) * config.boxSize ∧
    Int.floor (r * ((canvas.width : ℚ) / (config.boxSize : ℚ) - 1)) * config.boxSize +
      config.boxSize < canvas.width := by
  have hbq : (0 : ℚ) < (config.boxSize : ℚ) := by exact_mod_cast hb
  have hwq : (config.boxSize : ℚ) < (canvas.width : ℚ) := by exact_mod_cast hw
  have hmax : (0 : ℚ) < (canvas.width : ℚ) / (config.boxSize : ℚ) - 1 := by
    rw [sub_pos, lt_div_iff₀ hbq]
    linarith
  have h0 : 0 ≤ Int.floor (r * ((canvas.width : ℚ) / (config.boxSize : ℚ) - 1)) :=
    Int.floor_nonneg.mpr (mul_nonneg hr0 (le_of_lt hmax))
  have hlt : ((Int.floor (r * ((canvas.width : ℚ) / (config.boxSize : ℚ) - 1)) : ℤ) : ℚ) <
      (canvas.width : ℚ) / (config.boxSize : ℚ) - 1 := by
    calc ((Int.floor (r * ((canvas.width : ℚ) / (config.boxSize : ℚ) - 1)) : ℤ) : ℚ)
        ≤ r * ((canvas.width : ℚ) / (config.boxSize : ℚ) - 1) := Int.floor_le _
      _ < 1 * ((canvas.width : ℚ) / (config.boxSize : ℚ) - 1) :=
          mul_lt_mul_of_pos_right hr1 hmax
      _ = (canvas.width : ℚ) / (config.boxSize : ℚ) - 1 := one_mul _
  refine ⟨h0, hlt, mul_nonneg h0 (le_of_lt hb), ?_⟩
  have h1 : ((Int.floor (r * ((canvas.width : ℚ) / (config.boxSize : ℚ) - 1)) : ℤ) : ℚ) + 1 <
      (canvas.width : ℚ) / (config.boxSize : ℚ) := by linarith
  rw [lt_div_iff₀ hbq] at h1
  have h2 : ((Int.floor (r * ((canvas.width : ℚ) / (config.boxSize : ℚ) - 1)) *
      config.boxSize + config.boxSize : ℤ) : ℚ) < (canvas.width : ℚ) := by
    push_cast
    linarith
  exact_mod_cast h2

theorem foodCandidate_range (config : Config) (canvas : Canvas) (rx ry : ℚ)
    (hb : 0 < config.boxSize) (hw : config.boxSize < canvas.width)
    (hh : canvas.width ≤ canvas.height)
    (hrx0 : 0 ≤ rx) (hrx1 : rx < 1) (hry0 : 0 ≤ ry) (hry1 : ry < 1) :
    FoodRange config canvas (foodCandidate config canvas rx ry) := by
  obtain ⟨hx0, hx1, hx2, hx3⟩ := candidate_index config canvas rx hb hw hrx0 hrx1
  obtain ⟨hy0, hy1, hy2, hy3⟩ := candidate_index config canvas ry hb hw hry0 hry1
  exact ⟨_, _, rfl, hx0, hx1, hy0, hy1, hx2, hx3, hy2, lt_of_lt_of_le hy3 hh⟩

/-- C17: in every geometry of `resizeCanvas` with positive `boxSize`, for two
draws in `[0,1)` the cell that an attempt of `generateFood` produces has on
each axis an integer cell index at least 0 and less than
`canvas.width / boxSize - 1`; its pixel coordinates are that index times
`boxSize`, it starts inside the canvas, and so do the next column and the next
row, so it is not in the last column or row; `generateFood` returns that cell
when it is free, and every food that `generateFood` returns on draws in `[0,1)`
is such a cell. -/
theorem food_in_range (config : Config) (canvas : Canvas) (rx ry : ℚ)
    (hb : 0 < config.boxSize) (hgeo : IsGeometry config canvas)
    (hrx0 : 0 ≤ rx) (hrx1 : rx < 1) (hry0 : 0 ≤ ry) (hry1 : ry < 1) :
    FoodRange config canvas (foodCandidate config canvas rx ry) ∧
    (∀ s rest, foodCandidate config canvas rx ry ∉ s.snake →
      generateFood config canvas s (rx :: ry :: rest) =
        some ({ s with food := some (foodCandidate config canvas rx ry) }, rest)) ∧
    (∀ s draws s1 rest, (∀ r ∈ draws, 0 ≤ r ∧ r < 1) →
      generateFood config canvas s draws = some (s1, rest) →
      ∃ f, s1.food = some f ∧ FoodRange config canvas f) := by
  obtain ⟨hsq, h20, _⟩ := isGeometry_bounds config canvas hgeo
  have hw : config.boxSize < canvas.width := by omega
  have hh : canvas.width ≤ canvas.height := by omega
  refine ⟨foodCandidate_range config canvas rx ry hb hw hh hrx0 hrx1 hry0 hry1,
    fun s rest hfree => generateFood_free config canvas s rx ry rest hfree, ?_⟩
  intro s draws s1 rest hdraws h
  obtain ⟨qx, qy, hqx, hqy, hf⟩ := generateFood_some_candidate config canvas s draws s1 rest h
  exact ⟨_, hf, foodCandidate_range config canvas qx qy hb hw hh
    (hdraws qx hqx).1 (hdraws qx hqx).2 (hdraws qy hqy).1 (hdraws qy hqy).2⟩

/-- On the 20 x 20 grid the draws 1/2 and 18/19 give the cell (9,18): column
and row are below 19. -/
theorem food_in_range_witness :
    FoodRange shippedConfig shippedCanvas
      (foodCandidate shippedConfig shippedCanvas (1 / 2) (18 / 19)) :=
  (food_in_range shippedConfig shippedCanvas (1 / 2) (18 / 19) (by decide)
    isGeometry_shipped (by norm_num) (by norm_num) (by norm_num) (by norm_num)).1

/-! ## Termination of the food placement -/

theorem mem_blockColumns (c : Cell) :
    ∀ n i : Nat, i < n → c ∈ blockColumn i → c ∈ blockColumns n := by
  intro n
  induction n with
  | zero => intro i hi; omega
  | succ n ih =>
    intro i hi hc
    simp only [blockColumns, List.mem_append]
    by_cases h : i < n
    · exact Or.inl (ih i h hc)
    · have : i = n := by omega
      subst this
      exact Or.inr hc

/-- Every cell of the columns and rows 0 to 18 is on `blockSnake`. -/
theorem mem_blockSnake (i j : Nat) (hi : i < 19) (hj : j < 19) :
    ({ x := 20 * (i : Int), y := 20 * (j : Int) } : Cell) ∈ blockSnake := by
  refine mem_blockColumns _ 19 i hi ?_
  unfold blockColumn
  rw [List.mem_map]
  refine ⟨j, ?_, rfl⟩
  split
  · exact List.mem_range.mpr hj
  · exact List.mem_reverse.mpr (List.mem_range.mpr hj)

theorem almostFull_snake :
    almostFullState.snake = { x := 0, y := 20 } :: almostFullState.snake.tail := by
  rfl

theorem blockSnake_eq : blockSnake = { x := 0, y := 0 } :: almostFullState.snake := by
  rfl

set_option maxRecDepth 100000 in
/-- The cell (0,0) is inside the canvas and off the snake of `almostFullState`. -/
theorem almostFull_free_head :
    collides shippedCanvas almostFullState.snake { x := 0, y := 0 } = false := by
  decide

set_option maxRecDepth 100000 in
/-- The cell (19,0) of the last column is inside the canvas and off
`blockSnake`. -/
theorem blockSnake_free_cell :
    collides shippedCanvas blockSnake { x := 380, y := 0 } = false := by
  decide

theorem nodup_of_distinctCells : ∀ l : List Cell, distinctCells l = true → l.Nodup := by
  intro l
  induction l with
  | nil => intro _; exact List.nodup_nil
  | cons c rest ih =>
    intro h
    simp only [distinctCells, Bool.and_eq_true, Bool.not_eq_true'] at h
    exact List.nodup_cons.mpr ⟨(onSnake_false_iff rest c).mp h.1, ih h.2⟩

set_option maxRecDepth 1000000 in
/-- The snake of `almostFullState` is a snake: 360 cells, no cell twice, each
next to the one before. -/
theorem almostFull_wellFormed :
    almostFullState.snake.length = 360 ∧ distinctCells almostFullState.snake = true ∧
    adjacentCells almostFullState.snake = true := by
  decide

/-- When every candidate of draws in `[0,1)` is on the snake, `generateFood`
does not return on any such draws. -/
theorem generateFood_covered (config : Config) (canvas : Canvas) (s : State)
    (hcov : ∀ rx ry : ℚ, 0 ≤ rx → rx < 1 → 0 ≤ ry → ry < 1 →
      foodCandidate config canvas rx ry ∈ s.snake) :
    ∀ draws : List ℚ, (∀ r ∈ draws, 0 ≤ r ∧ r < 1) →
      generateFood config canvas s draws = none := by
  intro draws
  generalize hn : draws.length = n
  induction n using Nat.strong_induction_on generalizing draws with
  | _ n ih =>
    intro hdraws
    match draws, hn, hdraws with
    | [], _, _ => simp [generateFood]
    | [_], _, _ => simp [generateFood]
    | rx :: ry :: rest, hn, hdraws =>
      have hx := hdraws rx (by simp)
      have hy := hdraws ry (by simp)
      rw [generateFood_candidate,
        (onSnake_iff _ _).mpr (hcov rx ry hx.1 hx.2 hy.1 hy.2)]
      simp only [if_true]
      have hlt : rest.length < n := by
        simp only [List.length_cons] at hn
        omega
      exact ih rest.length hlt rest rfl (fun r hr => hdraws r (by simp [hr]))

/-- On the 400 x 400 canvas with boxes of 20 every candidate of draws in
`[0,1)` is a cell of `blockSnake`. -/
theorem candidate_on_blockSnake (rx ry : ℚ) (hrx0 : 0 ≤ rx) (hrx1 : rx < 1)
    (hry0 : 0 ≤ ry) (hry1 : ry < 1) :
    foodCandidate shippedConfig shippedCanvas rx ry ∈ blockSnake := by
  have hb : 0 < shippedConfig.boxSize := by decide
  have hw : shippedConfig.boxSize < shippedCanvas.width := by decide
  obtain ⟨hx0, hx1, _, _⟩ := candidate_index shippedConfig shippedCanvas rx hb hw hrx0 hrx1
  obtain ⟨hy0, hy1, _, _⟩ := candidate_index shippedConfig shippedCanvas ry hb hw hry0 hry1
  have hmax : ((shippedCanvas.width : ℤ) : ℚ) / ((shippedConfig.boxSize : ℤ) : ℚ) - 1 = 19 := by
    norm_num [shippedCanvas, shippedConfig]
  rw [hmax] at hx0 hx1 hy0 hy1
  have hx2 : Int.floor (rx * 19) < 19 := by exact_mod_cast hx1
  have hy2 : Int.floor (ry * 19) < 19 := by exact_mod_cast hy1
  have hm := mem_blockSnake (Int.floor (rx * 19)).toNat (Int.floor (ry * 19)).toNat
    (by omega) (by omega)
  rw [Int.toNat_of_nonneg hx0, Int.toNat_of_nonneg hy0] at hm
  have hc : foodCandidate shippedConfig shippedCanvas rx ry =
      { x := 20 * Int.floor (rx * 19), y := 20 * Int.floor (ry * 19) } := by
    simp only [foodCandidate, hmax]
    simp [shippedConfig, mul_comm]
  rw [hc]
  exact hm

theorem eaten_snake (config : Config) (s1 : State) (head : Cell) :
    (eaten config s1 head).snake = head :: s1.snake := by
  unfold eaten
  split <;> rfl

/-- A free cell whose column and row are below `width / boxSize - 1` can be
drawn: on the two draws `ix / maxPos` and `iy / maxPos`, both in `[0,1)`,
`generateFood` returns with the food on that cell. -/
theorem generateFood_returns_on (config : Config) (canvas : Canvas) (s : State)
    (ix iy : Int)
    (hx0 : 0 ≤ ix) (hx1 : (ix : ℚ) < (canvas.width : ℚ) / (config.boxSize : ℚ) - 1)
    (hy0 : 0 ≤ iy) (hy1 : (iy : ℚ) < (canvas.width : ℚ) / (config.boxSize : ℚ) - 1)
    (hfree : ({ x := ix * config.boxSize, y := iy * config.boxSize } : Cell) ∉ s.snake) :
    ∃ rx ry : ℚ, (0 ≤ rx ∧ rx < 1) ∧ (0 ≤ ry ∧ ry < 1) ∧
      generateFood config canvas s [rx, ry] =
        some ({ s with
                food := some { x := ix * config.boxSize, y := iy * config.boxSize } }, []) := by
  have hix : (0 : ℚ) ≤ (ix : ℚ) := by exact_mod_cast hx0
  have hiy : (0 : ℚ) ≤ (iy : ℚ) := by exact_mod_cast hy0
  have hmax : (0 : ℚ) < (canvas.width : ℚ) / (config.boxSize : ℚ) - 1 := lt_of_le_of_lt hix hx1
  have hcand : foodCandidate config canvas
      ((ix : ℚ) / ((canvas.width : ℚ) / (config.boxSize : ℚ) - 1))
      ((iy : ℚ) / ((canvas.width : ℚ) / (config.boxSize : ℚ) - 1)) =
      { x := ix * config.boxSize, y := iy * config.boxSize } := by
    simp only [foodCandidate]
    rw [div_mul_cancel₀ _ (ne_of_gt hmax), div_mul_cancel₀ _ (ne_of_gt hmax),
      Int.floor_intCast, Int.floor_intCast]
  refine ⟨(ix : ℚ) / ((canvas.width : ℚ) / (config.boxSize : ℚ) - 1),
    (iy : ℚ) / ((canvas.width : ℚ) / (config.boxSize : ℚ) - 1),
    ⟨div_nonneg hix (le_of_lt hmax), (div_lt_one hmax).mpr hx1⟩,
    ⟨div_nonneg hiy (le_of_lt hmax), (div_lt_one hmax).mpr hy1⟩, ?_⟩
  have h := generateFood_free config canvas s _ _ [] (by rw [hcand]; exact hfree)
  rw [hcand] at h
  exact h

/-- On the 400 x 400 canvas with boxes of 20, when the snake of
`almostFullState` has eaten the last cell of the block of columns and rows 0 to
18 it is `blockSnake`, and every attempt of `generateFood` on draws in `[0,1)`
lands on it: neither `generateFood`, in the state that the tick passes to it,
nor the tick returns. -/
theorem almostFull_never_returns (draws : List ℚ)
    (hdraws : ∀ r ∈ draws, 0 ≤ r ∧ r < 1) :
    (eaten shippedConfig (latch almostFullState) { x := 0, y := 0 }).snake = blockSnake ∧
    generateFood shippedConfig shippedCanvas
      (eaten shippedConfig (latch almostFullState) { x := 0, y := 0 }) draws = none ∧
    gameLoop shippedConfig shippedCanvas almostFullState draws = none := by
  have hsn : (eaten shippedConfig (latch almostFullState) { x := 0, y := 0 }).snake =
      blockSnake := by
    rw [eaten_snake, latch_snake, blockSnake_eq]
  have hg : generateFood shippedConfig shippedCanvas
      (eaten shippedConfig (latch almostFullState) { x := 0, y := 0 }) draws = none := by
    refine generateFood_covered shippedConfig shippedCanvas _ ?_ draws hdraws
    intro rx ry hrx0 hrx1 hry0 hry1
    rw [hsn]
    exact candidate_on_blockSnake rx ry hrx0 hrx1 hry0 hry1
  refine ⟨hsn, hg, ?_⟩
  have h := gameLoop_of_eat shippedConfig shippedCanvas almostFullState draws .UP
    { x := 0, y := 20 } almostFullState.snake.tail rfl rfl almostFull_snake
    almostFull_free_head rfl
  rw [h]
  have hm : moveHead shippedConfig .UP { x := 0, y := 20 } = { x := 0, y := 0 } := rfl
  rw [hm, hg]

/-- The claim C16 fails on the 400 x 400 canvas with boxes of 20: the snake of
`almostFullState` (360 distinct cells, each next to the one before) eats the
last cell of the block of columns and rows 0 to 18 and then is `blockSnake`,
which leaves the cell (19,0), inside the canvas, unoccupied; yet there is no
sequence of draws in `[0,1)` on which `generateFood` returns in the state that
the tick passes to it, and none on which the tick returns. -/
theorem generateFood_hangs_beside_free_cell :
    IsGeometry shippedConfig shippedCanvas ∧
    (almostFullState.snake.length = 360 ∧ almostFullState.snake.Nodup ∧
      adjacentCells almostFullState.snake = true) ∧
    (eaten shippedConfig (latch almostFullState) { x := 0, y := 0 }).snake = blockSnake ∧
    (({ x := 380, y := 0 } : Cell) ∉ blockSnake ∧
      collides shippedCanvas blockSnake { x := 380, y := 0 } = false) ∧
    (¬ ∃ draws : List ℚ, (∀ r ∈ draws, 0 ≤ r ∧ r < 1) ∧
      (generateFood shippedConfig shippedCanvas
        (eaten shippedConfig (latch almostFullState) { x := 0, y := 0 }) draws).isSome = true) ∧
    (¬ ∃ draws : List ℚ, (∀ r ∈ draws, 0 ≤ r ∧ r < 1) ∧
      (gameLoop shippedConfig shippedCanvas almostFullState draws).isSome = true) := by
  refine ⟨isGeometry_shipped,
    ⟨almostFull_wellFormed.1, nodup_of_distinctCells _ almostFull_wellFormed.2.1,
      almostFull_wellFormed.2.2⟩, (almostFull_never_returns [] (by simp)).1,
    ⟨?_, blockSnake_free_cell⟩, ?_, ?_⟩
  · intro hmem
    have hc := (collides_iff shippedCanvas blockSnake { x := 380, y := 0 }).mpr
      (Or.inr (Or.inr (Or.inr (Or.inr hmem))))
    rw [blockSnake_free_cell] at hc
    exact absurd hc (by simp)
  · rintro ⟨draws, hdraws, hsome⟩
    rw [(almostFull_never_returns draws hdraws).2.1] at hsome
    exact absurd hsome (by simp)
  · rintro ⟨draws, hdraws, hsome⟩
    rw [(almostFull_never_returns draws hdraws).2.2] at hsome
    exact absurd hsome (by simp)

/-- C16, amended: for every grid and every snake that leaves unoccupied a cell
whose column `ix` and row `iy` are at least 0 and below
`canvas.width / boxSize - 1` (a cell outside the last column and the last
row), `generateFood` can terminate: on two draws in `[0,1)` it returns with the
food on that cell.  With `0 < boxSize < canvas.width` no other cell is ever
returned: a `generateFood` that returns on draws in `[0,1)` has found a free
cell of that kind. -/
theorem generateFood_can_return (config : Config) (canvas : Canvas) (s : State)
    (ix iy : Int)
    (hx0 : 0 ≤ ix) (hx1 : (ix : ℚ) < (canvas.width : ℚ) / (config.boxSize : ℚ) - 1)
    (hy0 : 0 ≤ iy) (hy1 : (iy : ℚ) < (canvas.width : ℚ) / (config.boxSize : ℚ) - 1)
    (hfree : ({ x := ix * config.boxSize, y := iy * config.boxSize } : Cell) ∉ s.snake) :
    (∃ rx ry : ℚ, (0 ≤ rx ∧ rx < 1) ∧ (0 ≤ ry ∧ ry < 1) ∧
      generateFood config canvas s [rx, ry] =
        some ({ s with
                food := some { x := ix * config.boxSize, y := iy * config.boxSize } }, [])) ∧
    (0 < config.boxSize → config.boxSize < canvas.width →
      ∀ draws s1 rest, (∀ r ∈ draws, 0 ≤ r ∧ r < 1) →
        generateFood config canvas s draws = some (s1, rest) →
        ∃ jx jy : Int,
          0 ≤ jx ∧ (jx : ℚ) < (canvas.width : ℚ) / (config.boxSize : ℚ) - 1 ∧
          0 ≤ jy ∧ (jy : ℚ) < (canvas.width : ℚ) / (config.boxSize : ℚ) - 1 ∧
          ({ x := jx * config.boxSize, y := jy * config.boxSize } : Cell) ∉ s.snake ∧
          s1.food = some { x := jx * config.boxSize, y := jy * config.boxSize }) := by
  refine ⟨generateFood_returns_on config canvas s ix iy hx0 hx1 hy0 hy1 hfree, ?_⟩
  intro hb hw draws s1 rest hdraws h
  obtain ⟨f, hs1, hmem, _⟩ := generateFood_some _ _ _ _ _ _ h
  obtain ⟨rx, ry, hrx, hry, hfood⟩ := generateFood_some_candidate _ _ _ _ _ _ h
  obtain ⟨hjx0, hjx1, _, _⟩ :=
    candidate_index config canvas rx hb hw (hdraws rx hrx).1 (hdraws rx hrx).2
  obtain ⟨hjy0, hjy1, _, _⟩ :=
    candidate_index config canvas ry hb hw (hdraws ry hry).1 (hdraws ry hry).2
  have hf : f = foodCandidate config canvas rx ry := by
    rw [hs1] at hfood
    simpa using hfood
  refine ⟨_, _, hjx0, hjx1, hjy0, hjy1, ?_, hfood⟩
  have hcand : foodCandidate config canvas rx ry ∉ s.snake := hf ▸ hmem
  exact hcand

/-- On the 20 x 20 grid the cell (9,9) is off the three-cell snake of
`aboutToEatState`, and two draws in `[0,1)` put the food there. -/
theorem generateFood_can_return_witness :
    ∃ rx ry : ℚ, (0 ≤ rx ∧ rx < 1) ∧ (0 ≤ ry ∧ ry < 1) ∧
      generateFood shippedConfig shippedCanvas aboutToEatState [rx, ry] =
        some ({ aboutToEatState with
                food := some { x := 9 * shippedConfig.boxSize,
                               y := 9 * shippedConfig.boxSize } }, []) :=
  (generateFood_can_return shippedConfig shippedCanvas aboutToEatState 9 9
    (by decide) (by norm_num [shippedConfig, shippedCanvas])
    (by decide) (by norm_num [shippedConfig, shippedCanvas])
    (by decide)).1

/-! ## Cells on the grid -/

theorem foodRange_onGrid (config : Config) (canvas : Canvas) (c : Cell)
    (hb : 0 < config.boxSize) (h : FoodRange config canvas c) : OnGrid config canvas c := by
  obtain ⟨ix, iy, hc, hx0, _, hy0, _, hcx, hcx2, hcy, hcy2⟩ := h
  exact ⟨ix, iy, hx0, hy0, hc, hcx, by omega, hcy, by omega⟩

theorem centerCell_onGrid (config : Config) (canvas : Canvas) (hb : 0 < config.boxSize)
    (hw : 2 * config.boxSize < canvas.width) (hh : 2 * config.boxSize < canvas.height) :
    OnGrid config canvas (centerCell config canvas) := by
  obtain ⟨hx1, hx2, hy1, hy2⟩ := centerCell_bounds config canvas hb hw hh
  refine ⟨Int.floor ((canvas.width : ℚ) / (config.boxSize : ℚ) / 2),
    Int.floor ((canvas.height : ℚ) / (config.boxSize : ℚ) / 2), ?_, ?_, rfl,
    by omega, by omega, by omega, by omega⟩
  · have h : 0 ≤ Int.floor ((canvas.width : ℚ) / (config.boxSize : ℚ) / 2) * config.boxSize := by
      have : (centerCell config canvas).x =
          Int.floor ((canvas.width : ℚ) / (config.boxSize : ℚ) / 2) * config.boxSize := rfl
      omega
    exact nonneg_of_mul_nonneg_left h hb
  · have h : 0 ≤ Int.floor ((canvas.height : ℚ) / (config.boxSize : ℚ) / 2) * config.boxSize := by
      have : (centerCell config canvas).y =
          Int.floor ((canvas.height : ℚ) / (config.boxSize : ℚ) / 2) * config.boxSize := rfl
      omega
    exact nonneg_of_mul_nonneg_left h hb

/-- A head that passes the collision test, one box away from a cell on the
grid, is on the grid. -/
theorem moveHead_onGrid (config : Config) (canvas : Canvas) (d : Direction) (c : Cell)
    (snake : List Cell) (hb : 0 < config.boxSize) (hc : OnGrid config canvas c)
    (hfree : collides canvas snake (moveHead config d c) = false) :
    OnGrid config canvas (moveHead config d c) := by
  have hnot : ¬ (collides canvas snake (moveHead config d c) = true) := by
    rw [hfree]; simp
  rw [collides_iff] at hnot
  simp only [not_or, not_lt, ge_iff_le, not_le] at hnot
  obtain ⟨hx0, hx1, hy0, hy1, _⟩ := hnot
  obtain ⟨i, j, hi, hj, hcell, _, _, _, _⟩ := hc
  subst hcell
  cases d
  · refine ⟨i, j - 1, hi, ?_, ?_, hx0, hx1, hy0, hy1⟩
    · have h : 0 ≤ (j - 1) * config.boxSize := by
        simp only [moveHead] at hy0
        rw [sub_mul, one_mul]
        exact hy0
      exact nonneg_of_mul_nonneg_left h hb
    · simp only [moveHead, sub_mul, one_mul]
  · refine ⟨i, j + 1, hi, by omega, ?_, hx0, hx1, hy0, hy1⟩
    simp only [moveHead, add_mul, one_mul]
  · refine ⟨i - 1, j, ?_, hj, ?_, hx0, hx1, hy0, hy1⟩
    · have h : 0 ≤ (i - 1) * config.boxSize := by
        simp only [moveHead] at hx0
        rw [sub_mul, one_mul]
        exact hx0
      exact nonneg_of_mul_nonneg_left h hb
    · simp only [moveHead, sub_mul, one_mul]
  · refine ⟨i + 1, j, by omega, hj, ?_, hx0, hx1, hy0, hy1⟩
    simp only [moveHead, add_mul, one_mul]

/-- A returning tick keeps the snake on the grid, whatever the draws. -/
theorem gameLoop_onGrid (config : Config) (canvas : Canvas) (s : State) (draws : List ℚ)
    (r : TickResult) (s1 : State) (rest : List ℚ) (hb : 0 < config.boxSize)
    (hP : ∀ c ∈ s.snake, OnGrid config canvas c)
    (h : gameLoop config canvas s draws = some (r, s1, rest)) :
    ∀ c ∈ s1.snake, OnGrid config canvas c := by
  rcases gameLoop_inv _ _ _ _ _ _ _ h with
    ⟨_, _, h1, _⟩ | ⟨_, _, _, h1, _⟩ | ⟨_, _, _, _, _, h1, _⟩ |
    ⟨_, _, _, _, _, _, _, _, h1, _⟩ |
    ⟨d, hd, tl, _, _, hs, hc, _, _, h1, _⟩ | ⟨d, hd, tl, f, _, _, hs, hc, _, _, h1, _⟩
  · rw [h1]; exact hP
  · rw [h1, latch_snake]; exact hP
  · rw [h1, latch_snake]; exact hP
  · rw [h1, (gameOver_fields _).1, latch_snake]; exact hP
  · have hhd : OnGrid config canvas hd := hP hd (by rw [hs]; simp)
    have hnew := moveHead_onGrid config canvas d hd s.snake hb hhd hc
    rw [h1]
    intro c hcm
    simp only [List.mem_cons] at hcm
    rcases hcm with hcm | hcm
    · rw [hcm]; exact hnew
    · exact hP c (by rw [hs]; exact List.mem_of_mem_dropLast hcm)
  · have hhd : OnGrid config canvas hd := hP hd (by rw [hs]; simp)
    have hnew := moveHead_onGrid config canvas d hd s.snake hb hhd hc
    rw [h1]
    intro c hcm
    have hcm2 : c ∈ moveHead config d hd :: s.snake := by
      have := eaten_snake config (latch s) (moveHead config d hd)
      rw [latch_snake] at this
      rw [← this]
      exact hcm
    simp only [List.mem_cons] at hcm2
    rcases hcm2 with hcm2 | hcm2
    · rw [hcm2]; exact hnew
    · exact hP c hcm2

theorem initGame_food (config : Config) (canvas : Canvas) (s : State) (draws : List ℚ)
    (s1 : State) (rest : List ℚ) (h : initGame config canvas s draws = some (s1, rest)) :
    ∃ rx ry, rx ∈ draws ∧ ry ∈ draws ∧
      s1.food = some (foodCandidate config canvas rx ry) := by
  unfold initGame at h
  simp only at h
  split at h
  · exact absurd h (by simp)
  · rename_i s2 rest2 hg
    obtain ⟨rx, ry, hx, hy, hf⟩ := generateFood_some_candidate _ _ _ _ _ _ hg
    simp only [Option.some.injEq, Prod.mk.injEq] at h
    exact ⟨rx, ry, hx, hy, by rw [← h.1]; exact hf⟩

theorem startGame_food (config : Config) (canvas : Canvas) (s : State) (draws : List ℚ)
    (s1 : State) (rest : List ℚ) (hg : s.gameStarted = false)
    (h : startGame config canvas s draws = some (s1, rest)) :
    ∃ rx ry, rx ∈ draws ∧ ry ∈ draws ∧
      s1.food = some (foodCandidate config canvas rx ry) := by
  rw [startGame_of_notStarted config canvas s draws hg] at h
  cases hi : initGame config canvas s draws with
  | none => simp [hi] at h
  | some p =>
    obtain ⟨s2, rest2⟩ := p
    obtain ⟨rx, ry, hx, hy, hf⟩ := initGame_food _ _ _ _ _ _ hi
    simp only [hi, Option.map_some', Option.some.injEq, Prod.mk.injEq] at h
    exact ⟨rx, ry, hx, hy, by rw [← h.1]; exact hf⟩

/-- The food that a handler leaves when it has called `initGame` is the
candidate of two of its draws. -/
theorem applyOp_reset_food (config : Config) (canvas : Canvas) (op : Op) (s : State)
    (draws : List ℚ) (s1 : State) (rest : List ℚ)
    (hreset : callsInitGame op s = true)
    (h : applyOp config canvas op s draws = some (s1, rest)) :
    ∃ rx ry, rx ∈ draws ∧ ry ∈ draws ∧
      s1.food = some (foodCandidate config canvas rx ry) := by
  cases op with
  | setDirection d =>
    have hg : s.gameStarted = false := by simpa [callsInitGame] using hreset
    simp only [applyOp, setDirection, hg, Bool.not_false, if_true] at h
    cases hst : startGame config canvas s draws with
    | none => simp [hst] at h
    | some p =>
      obtain ⟨s2, rest2⟩ := p
      obtain ⟨rx, ry, hx, hy, hf⟩ := startGame_food _ _ _ _ _ _ hg hst
      simp only [hst] at h
      split at h
      · simp only [Option.some.injEq, Prod.mk.injEq] at h
        exact ⟨rx, ry, hx, hy, by rw [← h.1]; exact hf⟩
      · simp only [Option.some.injEq, Prod.mk.injEq] at h
        exact ⟨rx, ry, hx, hy, by rw [← h.1]; exact hf⟩
  | startGame =>
    have hg : s.gameStarted = false := by simpa [callsInitGame] using hreset
    exact startGame_food _ _ _ _ _ _ hg h
  | pauseGame => simp [callsInitGame] at hreset
  | togglePause =>
    have hg : s.gameStarted = false := by simpa [callsInitGame] using hreset
    simp only [applyOp, togglePause, hg, Bool.not_false, if_true] at h
    exact startGame_food _ _ _ _ _ _ hg h
  | restartGame => exact initGame_food _ _ _ _ _ _ h
  | tick => simp [callsInitGame] at hreset

/-- The food after a returning tick is the food before it, or the candidate
of two of the draws. -/
theorem gameLoop_food (config : Config) (canvas : Canvas) (s : State) (draws : List ℚ)
    (r : TickResult) (s1 : State) (rest : List ℚ)
    (h : gameLoop config canvas s draws = some (r, s1, rest)) :
    s1.food = s.food ∨
    ∃ rx ry, rx ∈ draws ∧ ry ∈ draws ∧
      s1.food = some (foodCandidate config canvas rx ry) := by
  rcases gameLoop_inv _ _ _ _ _ _ _ h with
    ⟨_, _, h1, _⟩ | ⟨_, _, _, h1, _⟩ | ⟨_, _, _, _, _, h1, _⟩ |
    ⟨_, _, _, _, _, _, _, _, h1, _⟩ |
    ⟨_, _, _, _, _, _, _, _, _, h1, _⟩ | ⟨d, hd, tl, f, hp, hdir, hs, hc, hf, _, _, _⟩
  · exact Or.inl (by rw [h1])
  · exact Or.inl (by rw [h1, latch_food])
  · exact Or.inl (by rw [h1, latch_food])
  · exact Or.inl (by rw [h1, (gameOver_fields _).2.1, latch_food])
  · exact Or.inl (by rw [h1]; exact latch_food s)
  · rw [gameLoop_of_eat config canvas s draws d hd tl hp hdir hs hc hf] at h
    cases hg : generateFood config canvas (eaten config (latch s) (moveHead config d hd))
        draws with
    | none => simp [hg] at h
    | some p =>
      obtain ⟨s5, rest5⟩ := p
      obtain ⟨rx, ry, hx, hy, hfood⟩ := generateFood_some_candidate _ _ _ _ _ _ hg
      simp only [hg, Option.some.injEq, Prod.mk.injEq] at h
      exact Or.inr ⟨rx, ry, hx, hy, by rw [← h.2.1]; exact hfood⟩

/-- In a geometry of `resizeCanvas` with positive `boxSize`, the state that a
resetting handler leaves on draws in `[0,1)` has its snake and its food on the
grid. -/
theorem reset_onGrid (config : Config) (canvas : Canvas) (hb : 0 < config.boxSize)
    (hgeo : IsGeometry config canvas) (op : Op) (s : State) (draws : List ℚ) (s1 : State)
    (rest : List ℚ) (hd : ∀ r ∈ draws, 0 ≤ r ∧ r < 1)
    (hreset : callsInitGame op s = true)
    (h : applyOp config canvas op s draws = some (s1, rest)) :
    (∀ c ∈ s1.snake, OnGrid config canvas c) ∧
    (∀ f, s1.food = some f → OnGrid config canvas f) := by
  obtain ⟨hsq, h20, _⟩ := isGeometry_bounds config canvas hgeo
  constructor
  · rcases applyOp_cases _ _ _ _ _ _ _ h with ⟨hc, _⟩ | ⟨_, hfresh, _⟩ | ⟨ht, _⟩
    · rw [hreset] at hc
      exact absurd hc (by simp)
    · obtain ⟨f, _, hsn, _⟩ := hfresh
      rw [hsn]
      intro c hc
      simp only [List.mem_singleton] at hc
      rw [hc]
      exact centerCell_onGrid config canvas hb (by omega) (by omega)
    · subst ht
      simp [callsInitGame] at hreset
  · intro f hf
    obtain ⟨rx, ry, hx, hy, hfood⟩ := applyOp_reset_food _ _ _ _ _ _ _ hreset h
    rw [hfood] at hf
    simp only [Option.some.injEq] at hf
    rw [← hf]
    exact foodRange_onGrid config canvas _ hb
      (foodCandidate_range config canvas rx ry hb (by omega) (by omega)
        (hd rx hx).1 (hd rx hx).2 (hd ry hy).1 (hd ry hy).2)

theorem onGrid_step (config : Config) (canvas : Canvas) (hb : 0 < config.boxSize)
    (hgeo : IsGeometry config canvas) (op : Op) (s : State) (draws : List ℚ) (s1 : State)
    (rest : List ℚ)
    (hP : (∀ c ∈ s.snake, OnGrid config canvas c) ∧
      (∀ f, s.food = some f → OnGrid config canvas f))
    (hd : drawsInRange op s draws)
    (h : applyOp config canvas op s draws = some (s1, rest)) :
    (∀ c ∈ s1.snake, OnGrid config canvas c) ∧
    (∀ f, s1.food = some f → OnGrid config canvas f) := by
  obtain ⟨hsq, h20, _⟩ := isGeometry_bounds config canvas hgeo
  rcases applyOp_cases _ _ _ _ _ _ _ h with ⟨_, _, hsame, _⟩ | ⟨hc, _, _⟩ | ⟨_, r, hg⟩
  · rw [hsame.1, hsame.2.1]; exact hP
  · exact reset_onGrid config canvas hb hgeo op s draws s1 rest hd hc h
  · refine ⟨gameLoop_onGrid config canvas s draws r s1 rest hb hP.1 hg, ?_⟩
    intro f hf
    rcases gameLoop_food _ _ _ _ _ _ _ hg with h1 | ⟨rx, ry, hx, hy, hfood⟩
    · exact hP.2 f (by rw [← h1]; exact hf)
    · rw [hfood] at hf
      simp only [Option.some.injEq] at hf
      rw [← hf]
      exact foodRange_onGrid config canvas _ hb
        (foodCandidate_range config canvas rx ry hb (by omega) (by omega)
          (hd rx hx).1 (hd rx hx).2 (hd ry hy).1 (hd ry hy).2)

/-- C20: in a fixed geometry of `resizeCanvas` with positive `boxSize`, when a
handler has called `initGame` and all draws are values of `Math.random()`, in
the state it leaves and in every state reached from there each cell of the
snake and the food cell have coordinates that are `boxSize` times a column and
a row at least 0, with `0 ≤ x < canvas.width` and `0 ≤ y < canvas.height`; and
a tick, whatever its draws, leaves every cell of the snake so. -/
theorem cells_on_grid (config : Config) (canvas : Canvas) (hb : 0 < config.boxSize)
    (hgeo : IsGeometry config canvas) (op : Op) (s0 : State) (draws0 : List ℚ)
    (s1 : State) (rest0 : List ℚ) (s : State)
    (hd0 : ∀ r ∈ draws0, 0 ≤ r ∧ r < 1)
    (h0 : applyOp config canvas op s0 draws0 = some (s1, rest0))
    (hreset : callsInitGame op s0 = true)
    (hr : ReachableBy config canvas drawsInRange s1 s) :
    (∀ c ∈ s.snake, OnGrid config canvas c) ∧
    (∀ f, s.food = some f → OnGrid config canvas f) ∧
    (∀ draws r s2 rest, gameLoop config canvas s draws = some (r, s2, rest) →
      ∀ c ∈ s2.snake, OnGrid config canvas c) := by
  have hinv : (∀ c ∈ s.snake, OnGrid config canvas c) ∧
      (∀ f, s.food = some f → OnGrid config canvas f) := by
    refine reachableBy_induction config canvas drawsInRange
      (fun s => (∀ c ∈ s.snake, OnGrid config canvas c) ∧
        (∀ f, s.food = some f → OnGrid config canvas f)) ?_ _ s ?_ hr
    · intro op s draws s1 rest hP hok ha
      exact onGrid_step config canvas hb hgeo op s draws s1 rest hP hok ha
    · exact reset_onGrid config canvas hb hgeo op s0 draws0 s1 rest0 hd0 hreset h0
  exact ⟨hinv.1, hinv.2, fun draws r s2 rest hg =>
    gameLoop_onGrid config canvas s draws r s2 rest hb hinv.1 hg⟩

/-- The shipped game after its first eating tick: the new head (11,10) and
the new food (0,0) are on the 20 x 20 grid. -/
theorem cells_on_grid_witness :
    OnGrid shippedConfig shippedCanvas { x := 220, y := 200 } ∧
    OnGrid shippedConfig shippedCanvas { x := 0, y := 0 } :=
  have h := cells_on_grid shippedConfig shippedCanvas (by decide) isGeometry_shipped
    (.setDirection .RIGHT) (initialState shippedConfig none) [11 / 19, 10 / 19]
    (startedRightState 150) [] (ateRightState 145)
    (by
      intro r hr
      simp only [List.mem_cons, List.mem_singleton, List.not_mem_nil, or_false] at hr
      rcases hr with h | h <;> subst h <;> norm_num)
    applyOp_initial_right rfl
    (ReachableBy.step _ _ _ _ _ ReachableBy.refl
      (by
        intro r hr
        simp only [List.mem_cons, List.mem_singleton, List.not_mem_nil, or_false] at hr
        rcases hr with h | h <;> subst h <;> norm_num)
      applyOp_tick_right)
  ⟨h.1 _ (by simp [ateRightState]), h.2.1 _ rfl⟩

end Snake
